import Mathlib

/-!
# LC-3 virtual machine (`lc3.c`): embedding and verified properties

A shallow embedding of the emulator in `lc3.c`.

* A `uint16_t` is a natural number; every store of an `int`-typed C expression
  into a `uint16_t` object is written with an explicit `uint16` (reduction
  modulo `2 ^ 16`).
* The two global arrays `memory` and `registers` are functions `Nat → Nat`;
  the C program only indexes them inside their bounds, except for the string
  scans of the `PUTS` and `PUTSP` traps, which are modelled with an explicit
  bounds check.
* Standard input is the list of bytes that `getchar` is still going to deliver
  (the empty list is end of file), together with the list of answers that the
  successive `select` polls of `check_key` are going to give.
* Standard output is the trace of the `putc` and `fflush` calls made so far.
* Whether plain `char` is signed is left to the C implementation, so it is a
  parameter `char_signed` of the functions that depend on it.
-/

namespace LC3

/-! ## Constants of the source -/

def MEMORY_MAX : Nat := 1 <<< 16

def REGISTER_R0 : Nat := 0
def REGISTER_R1 : Nat := 1
def REGISTER_R2 : Nat := 2
def REGISTER_R3 : Nat := 3
def REGISTER_R4 : Nat := 4
def REGISTER_R5 : Nat := 5
def REGISTER_R6 : Nat := 6
def REGISTER_R7 : Nat := 7
def REGISTER_PC : Nat := 8
def REGISTER_COND : Nat := 9
def REGISTER_COUNT : Nat := 10

def MEMORY_MAPPED_REGISTER_KEYBOARD_STATUS : Nat := 0xFE00
def MEMORY_MAPPED_REGISTER_KEYBOARD_DATA : Nat := 0xFE02

def OPCODE_BR : Nat := 0
def OPCODE_ADD : Nat := 1
def OPCODE_LD : Nat := 2
def OPCODE_ST : Nat := 3
def OPCODE_JSR : Nat := 4
def OPCODE_AND : Nat := 5
def OPCODE_LDR : Nat := 6
def OPCODE_STR : Nat := 7
def OPCODE_RTI : Nat := 8
def OPCODE_NOT : Nat := 9
def OPCODE_LDI : Nat := 10
def OPCODE_STI : Nat := 11
def OPCODE_JMP : Nat := 12
def OPCODE_RES : Nat := 13
def OPCODE_LEA : Nat := 14
def OPCODE_TRAP : Nat := 15

def FLAG_POS_P : Nat := 1 <<< 0
def FLAG_ZRO_Z : Nat := 1 <<< 1
def FLAG_NEG_N : Nat := 1 <<< 2

def TRAP_GETC : Nat := 0x20
def TRAP_OUT : Nat := 0x21
def TRAP_PUTS : Nat := 0x22
def TRAP_IN : Nat := 0x23
def TRAP_PUTSP : Nat := 0x24
def TRAP_HALT : Nat := 0x25

def PC_START : Nat := 0x3000

def EXIT_SUCCESS : Int := 0
def EXIT_FAILURE : Int := 1

/-! ## C integer conversions -/

/-- Conversion of a non-negative C `int` value to `uint16_t`. -/
def uint16 (n : Nat) : Nat := n % 65536

/-- Conversion of an arbitrary C `int` value to `uint16_t`. -/
def uint16_of_int (n : Int) : Nat := (n % 65536).toNat

/-- Conversion of a C `int` value to `unsigned char`, as done by `putc`. -/
def uchar_of_int (n : Int) : Nat := (n % 256).toNat

/-- Conversion of a C `int` value to plain `char`; the result is the value of
the `char` object, negative for bytes above 127 when `char` is signed. -/
def char_of_int (char_signed : Bool) (n : Int) : Int :=
  if char_signed then (n + 128) % 256 - 128 else n % 256

/-! ## Machine state -/

/-- One call made on `stdout`. -/
inductive StdoutEvent where
  | putc (byte : Nat)
  | fflush
  deriving DecidableEq

/-- The globals of `lc3.c`, the locals of `main` that outlive one iteration,
and the part of the host that the program talks to. -/
structure Machine where
  /-- The array `memory`. -/
  memory : Nat → Nat
  /-- The array `registers`. -/
  registers : Nat → Nat
  /-- The local `running` of `main`. -/
  running : Bool
  /-- Bytes that `getchar` will deliver, in order; empty means end of file. -/
  stdin : List Nat
  /-- Answers of the coming `select` polls on standard input. -/
  ready : List Bool
  /-- Calls made on `stdout`, oldest first. -/
  stdout : List StdoutEvent
  /-- Whether the terminal is in the non-canonical, no-echo mode. -/
  raw_mode : Bool
  /-- The status `main` returned or `exit` was called with, once that happened. -/
  exit_status : Option Int

/-- Every cell of the state holds a value of its C type. -/
structure Machine.WF (s : Machine) : Prop where
  memory_lt : ∀ a, s.memory a < 65536
  registers_lt : ∀ r, s.registers r < 65536
  stdin_lt : ∀ b ∈ s.stdin, b < 256

/-- The assignment `registers[r] = value`. -/
def set_register (s : Machine) (r value : Nat) : Machine :=
  { s with registers := Function.update s.registers r value }

/-- The call `putc(c, stdout)`. -/
def putc (s : Machine) (c : Int) : Machine :=
  { s with stdout := s.stdout ++ [StdoutEvent.putc (uchar_of_int c)] }

/-- The call `fflush(stdout)`. -/
def fflush (s : Machine) : Machine :=
  { s with stdout := s.stdout ++ [StdoutEvent.fflush] }

/-- Writing the bytes of a string, as `printf("%s", str)` does. -/
def print_string (s : Machine) (str : String) : Machine :=
  { s with stdout := s.stdout ++ (str.toList.map fun c => StdoutEvent.putc c.toNat) }

/-- The call `puts(str)`: the string and a newline. -/
def puts (s : Machine) (str : String) : Machine :=
  putc (print_string s str) 10

/-- The call `getchar()`: the next byte of standard input, or `EOF`. -/
def getchar (s : Machine) : Int × Machine :=
  match s.stdin with
  | [] => (-1, s)
  | b :: rest => ((b : Int), { s with stdin := rest })

/-! ## Utilities -/

/-- Source: `sign_extend`. The C function is only called with `bit_count` in
`{5, 6, 9, 11}`; the shifts are done in `int`, the result is stored back into
the `uint16_t` parameter. -/
def sign_extend (thing : Nat) (bit_count : Nat) : Nat :=
  if (thing >>> (bit_count - 1)) &&& 1 ≠ 0 then
    uint16 (thing ||| (0xFFFF <<< bit_count))
  else
    thing

/-- Source: `update_flags`. -/
def update_flags (s : Machine) (r : Nat) : Machine :=
  if s.registers r = 0 then
    set_register s REGISTER_COND FLAG_ZRO_Z
  else if s.registers r >>> 15 ≠ 0 then
    set_register s REGISTER_COND FLAG_NEG_N
  else
    set_register s REGISTER_COND FLAG_POS_P

/-- Source: `swap16`. -/
def swap16 (thing : Nat) : Nat :=
  uint16 ((thing <<< 8) ||| (thing >>> 8))

/-! ## Memory -/

/-- Source: `memory_write`. -/
def memory_write (s : Machine) (address value : Nat) : Machine :=
  { s with memory := Function.update s.memory address value }

/-- Source: `check_key`: one `select` poll with a zero timeout. -/
def check_key (s : Machine) : Nat × Machine :=
  match s.ready with
  | [] => (0, s)
  | r :: rest => ((if r then 1 else 0), { s with ready := rest })

/-- Source: `memory_read`. -/
def memory_read (s : Machine) (address : Nat) : Nat × Machine :=
  if address = MEMORY_MAPPED_REGISTER_KEYBOARD_STATUS then
    let (key, s1) := check_key s
    if key ≠ 0 then
      let s2 := memory_write s1 MEMORY_MAPPED_REGISTER_KEYBOARD_STATUS (1 <<< 15)
      let (c, s3) := getchar s2
      let s4 := memory_write s3 MEMORY_MAPPED_REGISTER_KEYBOARD_DATA (uint16_of_int c)
      (s4.memory address, s4)
    else
      let s2 := memory_write s1 MEMORY_MAPPED_REGISTER_KEYBOARD_STATUS 0
      (s2.memory address, s2)
  else
    (s.memory address, s)

/-! ## Terminal -/

/-- Source: `disable_input_buffering`. -/
def disable_input_buffering (s : Machine) : Machine :=
  { s with raw_mode := true }

/-- Source: `restore_input_buffering`. -/
def restore_input_buffering (s : Machine) : Machine :=
  { s with raw_mode := false }

/-- Source: `handle_interrupt`. The value `-2` is the argument of `exit`. -/
def handle_interrupt (s : Machine) : Machine :=
  { putc (restore_input_buffering s) 10 with exit_status := some (-2) }

/-! ## The instructions: the cases of the `switch` in `main` -/

/-- Source: `case OPCODE_ADD`. -/
def case_OPCODE_ADD (s : Machine) (instruction : Nat) : Machine :=
  let register_0 := (instruction >>> 9) &&& 0x7
  let register_1 := (instruction >>> 6) &&& 0x7
  let immediate_flag := (instruction >>> 5) &&& 0x1
  let s1 :=
    if immediate_flag ≠ 0 then
      let immediate_flag_extended := sign_extend (instruction &&& 0x1F) 5
      set_register s register_0 (uint16 (s.registers register_1 + immediate_flag_extended))
    else
      let register_2 := instruction &&& 0x7
      set_register s register_0 (uint16 (s.registers register_1 + s.registers register_2))
  update_flags s1 register_0

/-- Source: `case OPCODE_AND`. -/
def case_OPCODE_AND (s : Machine) (instruction : Nat) : Machine :=
  let register_0 := (instruction >>> 9) &&& 0x7
  let register_1 := (instruction >>> 6) &&& 0x7
  let immediate_flag := (instruction >>> 5) &&& 0x1
  let s1 :=
    if immediate_flag ≠ 0 then
      let immediate_flag_extended := sign_extend (instruction &&& 0x1F) 5
      set_register s register_0 (uint16 (s.registers register_1 &&& immediate_flag_extended))
    else
      let register_2 := instruction &&& 0x7
      set_register s register_0 (uint16 (s.registers register_1 &&& s.registers register_2))
  update_flags s1 register_0

/-- Source: `case OPCODE_NOT`. The complement `~x` of the promoted `int` is
`-x - 1`, stored back as `uint16_t`. -/
def case_OPCODE_NOT (s : Machine) (instruction : Nat) : Machine :=
  let register_0 := (instruction >>> 9) &&& 0x7
  let register_1 := (instruction >>> 6) &&& 0x7
  let s1 := set_register s register_0 (uint16_of_int (-(s.registers register_1 : Int) - 1))
  update_flags s1 register_0

/-- Source: `case OPCODE_BR`. -/
def case_OPCODE_BR (s : Machine) (instruction : Nat) : Machine :=
  let pc_offset := sign_extend (instruction &&& 0x1FF) 9
  let condition_flag := (instruction >>> 9) &&& 0x7
  if condition_flag &&& s.registers REGISTER_COND ≠ 0 then
    set_register s REGISTER_PC (uint16 (s.registers REGISTER_PC + pc_offset))
  else
    s

/-- Source: `case OPCODE_JMP`. -/
def case_OPCODE_JMP (s : Machine) (instruction : Nat) : Machine :=
  let register_1 := (instruction >>> 6) &&& 0x7
  set_register s REGISTER_PC (s.registers register_1)

/-- Source: `case OPCODE_JSR`. -/
def case_OPCODE_JSR (s : Machine) (instruction : Nat) : Machine :=
  let long_flag := (instruction >>> 11) &&& 1
  let s1 := set_register s REGISTER_R7 (s.registers REGISTER_PC)
  if long_flag ≠ 0 then
    let long_pc_offset := sign_extend (instruction &&& 0x7FF) 11
    set_register s1 REGISTER_PC (uint16 (s1.registers REGISTER_PC + long_pc_offset))
  else
    let register_1 := (instruction >>> 6) &&& 0x7
    set_register s1 REGISTER_PC (s1.registers register_1)

/-- Source: `case OPCODE_LD`. -/
def case_OPCODE_LD (s : Machine) (instruction : Nat) : Machine :=
  let register_0 := (instruction >>> 9) &&& 0x7
  let pc_offset := sign_extend (instruction &&& 0x1FF) 9
  let (value, s1) := memory_read s (uint16 (s.registers REGISTER_PC + pc_offset))
  update_flags (set_register s1 register_0 value) register_0

/-- Source: `case OPCODE_LDI`. -/
def case_OPCODE_LDI (s : Machine) (instruction : Nat) : Machine :=
  let register_0 := (instruction >>> 9) &&& 0x7
  let pc_offset := sign_extend (instruction &&& 0x1FF) 9
  let (address, s1) := memory_read s (uint16 (s.registers REGISTER_PC + pc_offset))
  let (value, s2) := memory_read s1 address
  update_flags (set_register s2 register_0 value) register_0

/-- Source: `case OPCODE_LDR`. -/
def case_OPCODE_LDR (s : Machine) (instruction : Nat) : Machine :=
  let register_0 := (instruction >>> 9) &&& 0x7
  let register_1 := (instruction >>> 6) &&& 0x7
  let offset := sign_extend (instruction &&& 0x3F) 6
  let (value, s1) := memory_read s (uint16 (s.registers register_1 + offset))
  update_flags (set_register s1 register_0 value) register_0

/-- Source: `case OPCODE_LEA`. -/
def case_OPCODE_LEA (s : Machine) (instruction : Nat) : Machine :=
  let register_0 := (instruction >>> 9) &&& 0x7
  let pc_offset := sign_extend (instruction &&& 0x1FF) 9
  let s1 := set_register s register_0 (uint16 (s.registers REGISTER_PC + pc_offset))
  update_flags s1 register_0

/-- Source: `case OPCODE_ST`. -/
def case_OPCODE_ST (s : Machine) (instruction : Nat) : Machine :=
  let register_0 := (instruction >>> 9) &&& 0x7
  let pc_offset := sign_extend (instruction &&& 0x1FF) 9
  memory_write s (uint16 (s.registers REGISTER_PC + pc_offset)) (s.registers register_0)

/-- Source: `case OPCODE_STI`. -/
def case_OPCODE_STI (s : Machine) (instruction : Nat) : Machine :=
  let register_0 := (instruction >>> 9) &&& 0x7
  let pc_offset := sign_extend (instruction &&& 0x1FF) 9
  let (address, s1) := memory_read s (uint16 (s.registers REGISTER_PC + pc_offset))
  memory_write s1 address (s1.registers register_0)

/-- Source: `case OPCODE_STR`. -/
def case_OPCODE_STR (s : Machine) (instruction : Nat) : Machine :=
  let register_0 := (instruction >>> 9) &&& 0x7
  let register_1 := (instruction >>> 6) &&& 0x7
  let offset := sign_extend (instruction &&& 0x3F) 6
  memory_write s (uint16 (s.registers register_1 + offset)) (s.registers register_0)

/-! ## The trap routines -/

/-- Source: the `while (*character)` loop of `case TRAP_PUTS`, with `character`
the index of the pointer into `memory`. The result is `none` when the loop
reads outside the array (the pointer has reached `memory + MEMORY_MAX`), which
the C standard leaves undefined. The first argument bounds the number of
iterations; `MEMORY_MAX + 1` is always enough. -/
def puts_loop (char_signed : Bool) (s : Machine) : Nat → Nat → Option Machine
  | 0, _ => none
  | fuel + 1, character =>
    if MEMORY_MAX ≤ character then none
    else if s.memory character = 0 then some s
    else
      puts_loop char_signed (putc s (char_of_int char_signed (s.memory character))) fuel
        (character + 1)

/-- Source: the `while (*character)` loop of `case TRAP_PUTSP`; see `puts_loop`. -/
def putsp_loop (char_signed : Bool) (s : Machine) : Nat → Nat → Option Machine
  | 0, _ => none
  | fuel + 1, character =>
    if MEMORY_MAX ≤ character then none
    else if s.memory character = 0 then some s
    else
      let character1 := char_of_int char_signed ((s.memory character &&& 0xFF : Nat) : Int)
      let s1 := putc s character1
      let character2 := char_of_int char_signed ((s.memory character >>> 8 : Nat) : Int)
      let s2 := if character2 ≠ 0 then putc s1 character2 else s1
      putsp_loop char_signed s2 fuel (character + 1)

/-- Source: `case OPCODE_TRAP`, the inner `switch (instruction & 0xFF)`. -/
def case_OPCODE_TRAP (char_signed : Bool) (s : Machine) (instruction : Nat) : Option Machine :=
  let vector := instruction &&& 0xFF
  if vector = TRAP_GETC then
    let (c, s1) := getchar s
    some (update_flags (set_register s1 REGISTER_R0 (uint16_of_int c)) REGISTER_R0)
  else if vector = TRAP_OUT then
    some (fflush (putc s (char_of_int char_signed (s.registers REGISTER_R0))))
  else if vector = TRAP_IN then
    let s1 := print_string s "Enter a character: "
    let (c, s2) := getchar s1
    let character := char_of_int char_signed c
    let s3 := fflush (putc s2 character)
    some (update_flags (set_register s3 REGISTER_R0 (uint16_of_int character)) REGISTER_R0)
  else if vector = TRAP_PUTS then
    (puts_loop char_signed s (MEMORY_MAX + 1) (s.registers REGISTER_R0)).map fflush
  else if vector = TRAP_PUTSP then
    (putsp_loop char_signed s (MEMORY_MAX + 1) (s.registers REGISTER_R0)).map fflush
  else if vector = TRAP_HALT then
    some { fflush (puts s "Machine halted!") with running := false }
  else
    some s

/-- Source: `case OPCODE_RES: case OPCODE_RTI: default:`; `main` returns
`EXIT_FAILURE` from inside the loop. -/
def case_invalid (s : Machine) : Machine :=
  { puts s "Invalid opcode!\n" with exit_status := some EXIT_FAILURE }

/-! ## The executor -/

/-- Source: the `switch (opcode)` in `main`. -/
def execute (char_signed : Bool) (s : Machine) (instruction : Nat) : Option Machine :=
  let opcode := instruction >>> 12
  if opcode = OPCODE_ADD then some (case_OPCODE_ADD s instruction)
  else if opcode = OPCODE_AND then some (case_OPCODE_AND s instruction)
  else if opcode = OPCODE_NOT then some (case_OPCODE_NOT s instruction)
  else if opcode = OPCODE_BR then some (case_OPCODE_BR s instruction)
  else if opcode = OPCODE_JMP then some (case_OPCODE_JMP s instruction)
  else if opcode = OPCODE_JSR then some (case_OPCODE_JSR s instruction)
  else if opcode = OPCODE_LD then some (case_OPCODE_LD s instruction)
  else if opcode = OPCODE_LDI then some (case_OPCODE_LDI s instruction)
  else if opcode = OPCODE_LDR then some (case_OPCODE_LDR s instruction)
  else if opcode = OPCODE_LEA then some (case_OPCODE_LEA s instruction)
  else if opcode = OPCODE_ST then some (case_OPCODE_ST s instruction)
  else if opcode = OPCODE_STI then some (case_OPCODE_STI s instruction)
  else if opcode = OPCODE_STR then some (case_OPCODE_STR s instruction)
  else if opcode = OPCODE_TRAP then case_OPCODE_TRAP char_signed s instruction
  else some (case_invalid s)

/-- Source: the fetch `memory_read(registers[REGISTER_PC]++)`: the argument is
the old program counter, and the increment is done before the call. -/
def fetch (s : Machine) : Nat × Machine :=
  let pc := s.registers REGISTER_PC
  memory_read (set_register s REGISTER_PC (uint16 (pc + 1))) pc

/-- One iteration of the `while (running)` loop of `main`. The result is `none`
when the iteration has undefined behaviour (see `puts_loop`). -/
def step (char_signed : Bool) (s : Machine) : Option Machine :=
  let (instruction, s1) := fetch s
  execute char_signed s1 instruction

/-- Whether the loop of `main` is still going: `running` is set and `main` has
not returned. -/
def in_loop (s : Machine) : Bool :=
  s.running && s.exit_status.isNone

/-- The first `n` iterations of the loop of `main`, fewer when the loop ends
before. -/
def cycles (char_signed : Bool) : Nat → Machine → Option Machine
  | 0, s => some s
  | n + 1, s =>
    if in_loop s then
      match step char_signed s with
      | none => none
      | some s1 => cycles char_signed n s1
    else
      some s

/-- Source: `main` from `signal(SIGINT, handle_interrupt)` up to the loop, on
the state left by the image loading. -/
def boot (s : Machine) : Machine :=
  let s1 := disable_input_buffering s
  let s2 := set_register s1 REGISTER_COND FLAG_ZRO_Z
  let s3 := set_register s2 REGISTER_PC PC_START
  { s3 with running := true }

/-! ## `main`: after the loop -/

/-- Source: the end of `main`, reached when the test of `while (running)`
fails: `restore_input_buffering(); return EXIT_SUCCESS;`. -/
def main_return (s : Machine) : Machine :=
  { restore_input_buffering s with exit_status := some EXIT_SUCCESS }

/-- What `main` does once an iteration of the loop is over: nothing more when
it has returned from inside the loop, nothing yet when `running` is still set
(the next iteration follows), and `main_return` otherwise. -/
def after_iteration (s : Machine) : Machine :=
  if s.exit_status.isSome then s
  else if s.running then s
  else main_return s

/-- Source: `main` from the loop on, for at most `n` iterations. -/
def run (char_signed : Bool) (n : Nat) (s : Machine) : Option Machine :=
  (cycles char_signed n s).map after_iteration

/-! ## Image loader

A file is the list of its bytes. The host is little-endian: `fread` into a
`uint16_t` puts the first byte of the file in the low half. Where the C
standard leaves a value indeterminate (an object `fread` did not fill, or
filled in part), the functions take that value as the parameter
`indeterminate`. -/

/-- The call `fread(ptr, sizeof(uint16_t), count, file)`: the complete elements
read, whether the stream ended inside an element (that element is then
indeterminate), and the rest of the stream. -/
def fread16 : Nat → List Nat → List Nat × Bool × List Nat
  | 0, stream => ([], false, stream)
  | _ + 1, [] => ([], false, [])
  | _ + 1, [_] => ([], true, [])
  | count + 1, b0 :: b1 :: rest =>
    ((b0 + 256 * b1) :: (fread16 count rest).1, (fread16 count rest).2.1,
      (fread16 count rest).2.2)

/-- The elements read by `fread`, stored from `memory + address` on. -/
def store_words (s : Machine) : Nat → List Nat → Machine
  | _, [] => s
  | address, w :: ws => store_words (memory_write s address w) (address + 1) ws

/-- Source: the loop `while (read-- > 0) { *p = swap16(*p); ++p; }` of
`image_file_read`, with `p` the index of the pointer into `memory`. -/
def swap_loop (s : Machine) : Nat → Nat → Machine
  | 0, _ => s
  | read + 1, p => swap_loop (memory_write s p (swap16 (s.memory p))) read (p + 1)

/-- Source: `image_file_read`. -/
def image_file_read (indeterminate : Nat) (s : Machine) (file : List Nat) : Machine :=
  let origin_read := fread16 1 file
  let origin := swap16 (origin_read.1.headD (uint16 indeterminate))
  let read_max := uint16 (MEMORY_MAX - origin)
  let p := origin
  let payload_read := fread16 read_max origin_read.2.2
  let read := payload_read.1.length
  let s1 := store_words s p payload_read.1
  let s2 := if payload_read.2.1 then memory_write s1 (p + read) (uint16 indeterminate) else s1
  swap_loop s2 read p

/-- Source: `image_read`. The file is `none` when `fopen` fails. -/
def image_read (indeterminate : Nat) (s : Machine) (file : Option (List Nat)) : Nat × Machine :=
  match file with
  | none => (0, s)
  | some stream => (1, image_file_read indeterminate s stream)

/-! ## Notions of the specification

These definitions are written from the words of the specification, not from
the source; the theorems below compare the source with them. -/

/-- The low `width` bits of `x` read as a two's-complement integer of that
width. -/
def signed_field (width x : Nat) : Int :=
  if x % 2 ^ width < 2 ^ (width - 1) then ((x % 2 ^ width : Nat) : Int)
  else ((x % 2 ^ width : Nat) : Int) - 2 ^ width

/-- The address `(p + 1 + offset) mod 2^16` of the specification, for a
pre-fetch program counter `p` and a signed offset. -/
def pc_relative (p : Nat) (offset : Int) : Nat :=
  (((p : Int) + 1 + offset) % 65536).toNat

/-- The condition flag that the specification attaches to a 16-bit value read
as two's complement: zero, negative or positive. -/
def flag_of_sign (v : Nat) : Nat :=
  if signed_field 16 v = 0 then FLAG_ZRO_Z
  else if signed_field 16 v < 0 then FLAG_NEG_N
  else FLAG_POS_P

/-- A machine state built from finite tables, for concrete instances: memory
and registers hold the listed values and zero elsewhere. -/
def machine_of (memory registers : List (Nat × Nat)) (stdin : List Nat)
    (ready : List Bool) : Machine where
  memory := fun a => (memory.lookup a).getD 0
  registers := fun r => (registers.lookup r).getD 0
  running := true
  stdin := stdin
  ready := ready
  stdout := []
  raw_mode := true
  exit_status := none

/-- One use of the memory port: a `memory_read` or a `memory_write`. -/
inductive MemoryOp where
  | read (address : Nat)
  | write (address value : Nat)

/-- The state after one use of the memory port. -/
def apply_op (s : Machine) : MemoryOp → Machine
  | MemoryOp.read address => (memory_read s address).2
  | MemoryOp.write address value => memory_write s address value

/-- The state after a sequence of uses of the memory port, in order. -/
def apply_ops (s : Machine) (ops : List MemoryOp) : Machine :=
  ops.foldl apply_op s

/-- The words of `memory` from address `a` up to, not including, `z`. -/
def words_between (memory : Nat → Nat) (a z : Nat) : List Nat :=
  (List.range' a (z - a)).map memory

/-- The bytes of a string of one character per word: the low byte of each
word. -/
def low_bytes (words : List Nat) : List Nat :=
  words.map fun w => w % 256

/-- The bytes of a string of two characters per word: for each word its low
byte, followed by its high byte when that is not zero. -/
def packed_bytes : List Nat → List Nat
  | [] => []
  | w :: ws => (if w / 256 % 256 ≠ 0 then [w % 256, w / 256 % 256] else [w % 256]) ++
      packed_bytes ws

/-- The big-endian encoding of a list of 16-bit words: for each word its high
byte, then its low byte. -/
def encode_words : List Nat → List Nat
  | [] => []
  | w :: ws => w / 256 :: w % 256 :: encode_words ws

/-- The `putc` calls that write the given bytes. -/
def putc_events (bytes : List Nat) : List StdoutEvent :=
  bytes.map StdoutEvent.putc

/-! ## Concrete machines used as instances -/

/-- `NOT R0, R0` at `0x3000`, with `R0 = 0`. -/
def example_NOT : Machine :=
  machine_of [(0x3000, 0x903F)] [(REGISTER_PC, 0x3000), (REGISTER_COND, FLAG_ZRO_Z)] [] []

/-- The program `ADD R1, R1, #0; TRAP HALT` at `0x3000` on a machine that is
otherwise zero, before `boot`. -/
def example_add_halt : Machine :=
  machine_of [(0x3000, 0x1260), (0x3001, 0xF025)] [] [] []

/-- `LEA R0, #-1` at `0xFFFF`, the last address, with the program counter there. -/
def example_LEA_wrap : Machine :=
  machine_of [(0xFFFF, 0xE1FF)] [(REGISTER_PC, 0xFFFF), (REGISTER_COND, FLAG_ZRO_Z)] [] []

/-- `ADD R0, R0, #-1` at `0x3000`, with `R0 = 1`. -/
def example_ADD_minus_one : Machine :=
  machine_of [(0x3000, 0x103F)]
    [(REGISTER_R0, 1), (REGISTER_PC, 0x3000), (REGISTER_COND, FLAG_POS_P)] [] []

/-- `ADD R0, R1, R2` at `0x3000`, with `R0 = 0`, `R1 = 5`, `R2 = 7`. -/
def example_ADD_registers : Machine :=
  machine_of [(0x3000, 0x1042)]
    [(REGISTER_R1, 5), (REGISTER_R2, 7), (REGISTER_PC, 0x3000), (REGISTER_COND, FLAG_ZRO_Z)]
    [] []

/-- `BRz #2` at `0x3000`, with the condition code Z. -/
def example_BRz : Machine :=
  machine_of [(0x3000, 0x0402)] [(REGISTER_PC, 0x3000), (REGISTER_COND, FLAG_ZRO_Z)] [] []

/-- `JSRR R7` at `0x3000`, with `R7 = 0x4000`. -/
def example_JSRR_R7 : Machine :=
  machine_of [(0x3000, 0x41C0)]
    [(REGISTER_R7, 0x4000), (REGISTER_PC, 0x3000), (REGISTER_COND, FLAG_ZRO_Z)] [] []

/-- `LDI R3, #1` at `0x3000`; the pointer at `0x3002` is `0x4000`, which holds
`0x8001`. -/
def example_LDI : Machine :=
  machine_of [(0x3000, 0xA601), (0x3002, 0x4000), (0x4000, 0x8001)]
    [(REGISTER_PC, 0x3000), (REGISTER_COND, FLAG_ZRO_Z)] [] []

/-- `AND R0, R1, R2` at `0x3000`, with `R0 = 0`, `R1 = 5`, `R2 = 7`. -/
def example_AND_registers : Machine :=
  machine_of [(0x3000, 0x5042)]
    [(REGISTER_R1, 5), (REGISTER_R2, 7), (REGISTER_PC, 0x3000), (REGISTER_COND, FLAG_ZRO_Z)]
    [] []

/-- `TRAP x25` (HALT) at `0x3000`. -/
def example_HALT : Machine :=
  machine_of [(0x3000, 0xF025)] [(REGISTER_PC, 0x3000), (REGISTER_COND, FLAG_ZRO_Z)] [] []

/-- `RTI` (word `0x8000`) at `0x3000`, before `boot`. -/
def example_RTI : Machine :=
  machine_of [(0x3000, 0x8000)] [] [] []

/-- `TRAP x00`, an unrecognized vector, at `0x3000`, with input pending. -/
def example_TRAP_unknown : Machine :=
  machine_of [(0x3000, 0xF000)]
    [(REGISTER_R0, 0x41), (REGISTER_R7, 0x1234), (REGISTER_PC, 0x3000),
      (REGISTER_COND, FLAG_POS_P)] [0x41] [true]

/-- `TRAP x22` (PUTS) at `0x3000` with `R0 = 0x4000` and the words `0x48`,
`0x49`, `0x00` from `0x4000` on. -/
def example_PUTS : Machine :=
  machine_of [(0x3000, 0xF022), (0x4000, 0x48), (0x4001, 0x49)]
    [(REGISTER_R0, 0x4000), (REGISTER_PC, 0x3000), (REGISTER_COND, FLAG_POS_P)] [] []

/-- `TRAP x24` (PUTSP) at `0x3000` with `R0 = 0x4000` and the words `0x4241`,
`0x0041`, `0x00` from `0x4000` on. -/
def example_PUTSP : Machine :=
  machine_of [(0x3000, 0xF024), (0x4000, 0x4241), (0x4001, 0x0041)]
    [(REGISTER_R0, 0x4000), (REGISTER_PC, 0x3000), (REGISTER_COND, FLAG_POS_P)] [] []

/-- `TRAP x22` (PUTS) at `0x3000` with `R0 = 0xFFFF`, the last cell, which
holds `0x41`: no zero word from `R0` to the end of `memory`. -/
def example_PUTS_unterminated : Machine :=
  machine_of [(0x3000, 0xF022), (0xFFFF, 0x41)]
    [(REGISTER_R0, 0xFFFF), (REGISTER_PC, 0x3000), (REGISTER_COND, FLAG_NEG_N)] [] []

/-- `TRAP x24` (PUTSP) at `0x3000` with `R0 = 0xFFFF`, the last cell, which
holds `0x41`. -/
def example_PUTSP_unterminated : Machine :=
  machine_of [(0x3000, 0xF024), (0xFFFF, 0x41)]
    [(REGISTER_R0, 0xFFFF), (REGISTER_PC, 0x3000), (REGISTER_COND, FLAG_NEG_N)] [] []

/-- `TRAP x23` (IN) at `0x3000` with the byte `0x80` on standard input. -/
def example_IN_high_byte : Machine :=
  machine_of [(0x3000, 0xF023)] [(REGISTER_PC, 0x3000), (REGISTER_COND, FLAG_ZRO_Z)] [0x80] []

/-- `TRAP x20` (GETC) at `0x3000` with the byte `0x80` on standard input. -/
def example_GETC_high_byte : Machine :=
  machine_of [(0x3000, 0xF020)] [(REGISTER_PC, 0x3000), (REGISTER_COND, FLAG_ZRO_Z)] [0x80] []

/-- `TRAP x23` (IN) at `0x3000` with the byte `A` on standard input. -/
def example_IN : Machine :=
  machine_of [(0x3000, 0xF023)] [(REGISTER_PC, 0x3000), (REGISTER_COND, FLAG_ZRO_Z)] [0x41] []

/-- Standard input at end of file while the poll reports it readable, with
`0x41` left at `0xFE02` by an earlier key. -/
def example_keyboard_eof : Machine :=
  machine_of [(0xFE02, 0x41)] [] [] [true]

/-- The byte `A` pending in the input buffer while the poll reports nothing
readable. -/
def example_keyboard_buffered : Machine :=
  machine_of [(0xFE00, 0x8000)] [] [0x41] [false]

/-! # Theorems -/

/-! ## Well-formedness of the concrete machines -/

theorem lookup_getD_lt (l : List (Nat × Nat)) (n : Nat) (hn : 0 < n)
    (h : ∀ p ∈ l, p.2 < n) (a : Nat) : (l.lookup a).getD 0 < n := by
  induction l with
  | nil => simpa using hn
  | cons p l ih =>
    obtain ⟨k, v⟩ := p
    rw [List.lookup_cons]
    split
    · exact h (k, v) (List.mem_cons_self _ _)
    · exact ih fun q hq => h q (List.mem_cons_of_mem _ hq)

theorem machine_of_WF (memory registers : List (Nat × Nat)) (stdin : List Nat)
    (ready : List Bool) (hm : ∀ p ∈ memory, p.2 < 65536) (hr : ∀ p ∈ registers, p.2 < 65536)
    (hi : ∀ b ∈ stdin, b < 256) : (machine_of memory registers stdin ready).WF :=
  ⟨lookup_getD_lt memory 65536 (by decide) hm, lookup_getD_lt registers 65536 (by decide) hr, hi⟩

/-! ## Bit fields -/

theorem shifted_field_lt (x n : Nat) : (x >>> n) &&& 0x7 < 8 :=
  Nat.lt_succ_of_le Nat.and_le_right

theorem or_shifted_ones (x k : Nat) (hx : x < 2 ^ k) :
    x ||| (0xFFFF <<< k) = 2 ^ k * 0xFFFF + x := by
  rw [Nat.shiftLeft_eq, Nat.lor_comm, Nat.mul_comm, Nat.mul_add_lt_is_or hx]

theorem shift_and_one_ne_zero (v n : Nat) :
    ((v >>> n) &&& 1 ≠ 0) ↔ v.testBit n = true := by
  rw [Nat.testBit_to_div_mod, Nat.shiftRight_eq_div_pow, Nat.and_one_is_mod]
  simp only [decide_eq_true_eq]
  omega

theorem testBit_or_shifted_ones (v k i : Nat) :
    (uint16 (v ||| (0xFFFF <<< k))).testBit i
      = (decide (i < 16) && (v.testBit i || decide (k ≤ i))) := by
  have h16 : (0xFFFF : Nat) = 2 ^ 16 - 1 := by norm_num
  have hm : (65536 : Nat) = 2 ^ 16 := by norm_num
  unfold uint16
  rw [hm, Nat.testBit_mod_two_pow, Nat.testBit_or, Nat.testBit_shiftLeft, h16,
    Nat.testBit_two_pow_sub_one]
  by_cases h1 : i < 16 <;> by_cases h2 : k ≤ i <;> simp [h1, h2]
  omega

theorem sign_extend_of_testBit (v k : Nat) (h : v.testBit (k - 1) = true) :
    sign_extend v k = uint16 (v ||| (0xFFFF <<< k)) := by
  unfold sign_extend
  rw [if_pos ((shift_and_one_ne_zero v (k - 1)).2 h)]

theorem sign_extend_of_not_testBit (v k : Nat) (h : v.testBit (k - 1) = false) :
    sign_extend v k = v := by
  unfold sign_extend
  rw [if_neg]
  rw [shift_and_one_ne_zero]
  simp [h]

theorem sign_extend_lt (v k : Nat) (hv : v < 65536) : sign_extend v k < 65536 := by
  unfold sign_extend uint16
  split
  · exact Nat.mod_lt _ (by norm_num)
  · exact hv

/-! ## Sign extension as arithmetic -/

theorem sign_extend_value (x k : Nat) (hk : k = 5 ∨ k = 6 ∨ k = 9 ∨ k = 11)
    (hx : x < 2 ^ k) :
    sign_extend x k = if x < 2 ^ (k - 1) then x else x + (65536 - 2 ^ k) := by
  unfold sign_extend uint16
  rw [or_shifted_ones x k hx, Nat.shiftRight_eq_div_pow, Nat.and_one_is_mod]
  rcases hk with rfl | rfl | rfl | rfl <;> norm_num at hx ⊢ <;> split <;> split <;> omega

theorem signed_field_value (x k : Nat) (hx : x < 2 ^ k) :
    signed_field k x = if x < 2 ^ (k - 1) then (x : Int) else (x : Int) - 2 ^ k := by
  unfold signed_field
  rw [Nat.mod_eq_of_lt hx]

theorem add_sign_extend (q x k : Nat) (hk : k = 5 ∨ k = 6 ∨ k = 9 ∨ k = 11)
    (hx : x < 2 ^ k) :
    uint16 (q + sign_extend x k) = (((q : Int) + signed_field k x) % 65536).toNat := by
  rw [sign_extend_value x k hk hx, signed_field_value x k hx]
  unfold uint16
  rcases hk with rfl | rfl | rfl | rfl <;> norm_num at hx ⊢ <;> split <;> omega

theorem pc_relative_eq (p x k : Nat) (hk : k = 5 ∨ k = 6 ∨ k = 9 ∨ k = 11)
    (hx : x < 2 ^ k) :
    uint16 (uint16 (p + 1) + sign_extend x k) = pc_relative p (signed_field k x) := by
  rw [add_sign_extend _ x k hk hx]
  unfold pc_relative uint16
  omega

theorem signed_field_range (x k : Nat) (hk : k = 5 ∨ k = 6 ∨ k = 9 ∨ k = 11) :
    -(2 ^ (k - 1) : Int) ≤ signed_field k x ∧ signed_field k x < 2 ^ (k - 1) := by
  unfold signed_field
  rcases hk with rfl | rfl | rfl | rfl <;> norm_num <;> split <;> omega

/-! ## Memory port and fetch -/

theorem memory_read_of_ne (s : Machine) (a : Nat)
    (h : a ≠ MEMORY_MAPPED_REGISTER_KEYBOARD_STATUS) : memory_read s a = (s.memory a, s) := by
  unfold memory_read
  rw [if_neg h]

theorem check_key_registers (s : Machine) : (check_key s).2.registers = s.registers := by
  unfold check_key
  split <;> rfl

theorem getchar_registers (s : Machine) : (getchar s).2.registers = s.registers := by
  unfold getchar
  split <;> rfl

theorem memory_read_eq (s : Machine) (a : Nat) :
    memory_read s a =
      if a = MEMORY_MAPPED_REGISTER_KEYBOARD_STATUS then
        if (check_key s).1 ≠ 0 then
          ((memory_write (getchar (memory_write (check_key s).2
              MEMORY_MAPPED_REGISTER_KEYBOARD_STATUS (1 <<< 15))).2
            MEMORY_MAPPED_REGISTER_KEYBOARD_DATA
            (uint16_of_int (getchar (memory_write (check_key s).2
              MEMORY_MAPPED_REGISTER_KEYBOARD_STATUS (1 <<< 15))).1)).memory a,
           memory_write (getchar (memory_write (check_key s).2
              MEMORY_MAPPED_REGISTER_KEYBOARD_STATUS (1 <<< 15))).2
            MEMORY_MAPPED_REGISTER_KEYBOARD_DATA
            (uint16_of_int (getchar (memory_write (check_key s).2
              MEMORY_MAPPED_REGISTER_KEYBOARD_STATUS (1 <<< 15))).1))
        else
          ((memory_write (check_key s).2 MEMORY_MAPPED_REGISTER_KEYBOARD_STATUS 0).memory a,
           memory_write (check_key s).2 MEMORY_MAPPED_REGISTER_KEYBOARD_STATUS 0)
      else (s.memory a, s) := rfl

theorem memory_read_registers (s : Machine) (a : Nat) :
    (memory_read s a).2.registers = s.registers := by
  rw [memory_read_eq]
  split
  · split
    · simp only [memory_write, getchar_registers, check_key_registers]
    · simp only [memory_write, check_key_registers]
  · rfl

theorem uint16_of_int_lt (n : Int) : uint16_of_int n < 65536 := by
  unfold uint16_of_int
  omega

theorem uint16_lt (n : Nat) : uint16 n < 65536 := by
  unfold uint16
  omega

theorem check_key_WF (s : Machine) (hs : s.WF) : (check_key s).2.WF := by
  unfold check_key
  split
  · exact hs
  · exact ⟨hs.memory_lt, hs.registers_lt, hs.stdin_lt⟩

theorem getchar_WF (s : Machine) (hs : s.WF) : (getchar s).2.WF := by
  unfold getchar
  split
  · exact hs
  · next b rest heq =>
    refine ⟨hs.memory_lt, hs.registers_lt, ?_⟩
    intro x hx
    exact hs.stdin_lt x (by rw [heq]; exact List.mem_cons_of_mem _ hx)

theorem memory_write_WF (s : Machine) (a v : Nat) (hs : s.WF) (hv : v < 65536) :
    (memory_write s a v).WF := by
  refine ⟨?_, hs.registers_lt, hs.stdin_lt⟩
  intro b
  show Function.update s.memory a v b < 65536
  rw [Function.update_apply]
  split
  · exact hv
  · exact hs.memory_lt b

theorem set_register_WF (s : Machine) (r v : Nat) (hs : s.WF) (hv : v < 65536) :
    (set_register s r v).WF := by
  refine ⟨hs.memory_lt, ?_, hs.stdin_lt⟩
  intro b
  show Function.update s.registers r v b < 65536
  rw [Function.update_apply]
  split
  · exact hv
  · exact hs.registers_lt b

theorem memory_read_WF (s : Machine) (a : Nat) (hs : s.WF) : (memory_read s a).2.WF := by
  rw [memory_read_eq]
  split
  · split
    · exact memory_write_WF _ _ _ (getchar_WF _ (memory_write_WF _ _ _ (check_key_WF s hs)
        (by decide))) (uint16_of_int_lt _)
    · exact memory_write_WF _ _ _ (check_key_WF s hs) (by decide)
  · exact hs

theorem memory_read_value (s : Machine) (a : Nat) :
    (memory_read s a).1 = (memory_read s a).2.memory a := by
  rw [memory_read_eq]
  split
  · split <;> rfl
  · rfl

theorem memory_read_lt (s : Machine) (a : Nat) (hs : s.WF) : (memory_read s a).1 < 65536 := by
  rw [memory_read_value]
  exact (memory_read_WF s a hs).memory_lt a

theorem fetch_registers (s : Machine) :
    (fetch s).2.registers
      = Function.update s.registers REGISTER_PC (uint16 (s.registers REGISTER_PC + 1)) := by
  unfold fetch
  rw [memory_read_registers]
  rfl

theorem fetch_WF (s : Machine) (hs : s.WF) : (fetch s).2.WF :=
  memory_read_WF _ _ (set_register_WF s _ _ hs (uint16_lt _))

theorem fetch_lt (s : Machine) (hs : s.WF) : (fetch s).1 < 65536 :=
  memory_read_lt _ _ (set_register_WF s _ _ hs (uint16_lt _))

theorem fetch_of_ne (s : Machine)
    (h : s.registers REGISTER_PC ≠ MEMORY_MAPPED_REGISTER_KEYBOARD_STATUS) :
    fetch s = (s.memory (s.registers REGISTER_PC),
      set_register s REGISTER_PC (uint16 (s.registers REGISTER_PC + 1))) := by
  unfold fetch
  rw [memory_read_of_ne _ _ h]
  rfl

theorem step_eq (cs : Bool) (s : Machine) :
    step cs s = execute cs (fetch s).2 (fetch s).1 := rfl

/-! ## C5: sign extension -/

theorem sign_extend_signed (v k : Nat) (hk : k = 5 ∨ k = 6 ∨ k = 9 ∨ k = 11)
    (hv : v < 2 ^ k) : signed_field 16 (sign_extend v k) = signed_field k v := by
  rw [sign_extend_value v k hk hv, signed_field_value v k hv]
  unfold signed_field
  rcases hk with rfl | rfl | rfl | rfl <;> norm_num at hv ⊢ <;> split <;> split <;> omega

/-- C5 (as amended). For every 16-bit value `v` and every `k` in `{5, 6, 9, 11}`:
if bit `k-1` of `v` is set, the high `16-k` bits of `sign_extend v k` are all
ones and its low `k` bits are those of `v`; if bit `k-1` is clear, the result
is `v` itself, so its high `16-k` bits are all zeros whenever `v < 2^k` (as at
every call site, which masks the field), and in that case the result is the
16-bit two's-complement representation of the `k`-bit field. -/
theorem sign_extend_contract (v k : Nat) (hv : v < 65536)
    (hk : k = 5 ∨ k = 6 ∨ k = 9 ∨ k = 11) :
    sign_extend v k < 65536 ∧
    (v.testBit (k - 1) = true →
      (∀ i, k ≤ i → i < 16 → (sign_extend v k).testBit i = true) ∧
      (∀ i, i < k → (sign_extend v k).testBit i = v.testBit i)) ∧
    (v.testBit (k - 1) = false → sign_extend v k = v) ∧
    (v < 2 ^ k → v.testBit (k - 1) = false →
      ∀ i, k ≤ i → i < 16 → (sign_extend v k).testBit i = false) ∧
    (v < 2 ^ k → signed_field 16 (sign_extend v k) = signed_field k v) := by
  refine ⟨sign_extend_lt v k hv, ?_, sign_extend_of_not_testBit v k, ?_,
    sign_extend_signed v k hk⟩
  · intro hb
    rw [sign_extend_of_testBit v k hb]
    constructor
    · intro i hki hi
      rw [testBit_or_shifted_ones]
      simp [hki, hi]
    · intro i hik
      rw [testBit_or_shifted_ones]
      have hi : i < 16 := by rcases hk with rfl | rfl | rfl | rfl <;> omega
      have hki : ¬ k ≤ i := by omega
      simp [hki, hi]
  · intro hlt hb i hki _
    rw [sign_extend_of_not_testBit v k hb]
    apply Nat.testBit_lt_two_pow
    exact Nat.lt_of_lt_of_le hlt (Nat.pow_le_pow_right (by norm_num) hki)

/-- C5, an instance of `sign_extend_contract`: the field `0x1F` of width 5 has
bit 4 set and extends to `0xFFFF`. -/
theorem sign_extend_contract_witness :
    sign_extend 0x1F 5 < 65536 ∧
    (Nat.testBit 0x1F (5 - 1) = true →
      (∀ i, 5 ≤ i → i < 16 → (sign_extend 0x1F 5).testBit i = true) ∧
      (∀ i, i < 5 → (sign_extend 0x1F 5).testBit i = Nat.testBit 0x1F i)) ∧
    (Nat.testBit 0x1F (5 - 1) = false → sign_extend 0x1F 5 = 0x1F) ∧
    (0x1F < 2 ^ 5 → Nat.testBit 0x1F (5 - 1) = false →
      ∀ i, 5 ≤ i → i < 16 → (sign_extend 0x1F 5).testBit i = false) ∧
    (0x1F < 2 ^ 5 → signed_field 16 (sign_extend 0x1F 5) = signed_field 5 0x1F) :=
  sign_extend_contract 0x1F 5 (by decide) (by decide)

/-- C5 (as stated) fails: `0x8000` is a 16-bit value whose bit 4 is clear, yet
bit 15, one of the high 11 bits of `sign_extend 0x8000 5`, is not zero. -/
theorem sign_extend_high_bits_counterexample :
    (0x8000 : Nat) < 65536 ∧ Nat.testBit 0x8000 (5 - 1) = false ∧
      ¬ (∀ i, 5 ≤ i → i < 16 → (sign_extend 0x8000 5).testBit i = false) := by
  refine ⟨by decide, by decide, ?_⟩
  intro h
  exact absurd (h 15 (by decide) (by decide)) (by decide)

/-! ## Dispatch -/

theorem execute_ADD (cs : Bool) (s : Machine) (i : Nat) (h : i >>> 12 = OPCODE_ADD) :
    execute cs s i = some (case_OPCODE_ADD s i) := by
  simp [execute, h, OPCODE_ADD]

theorem execute_AND (cs : Bool) (s : Machine) (i : Nat) (h : i >>> 12 = OPCODE_AND) :
    execute cs s i = some (case_OPCODE_AND s i) := by
  simp [execute, h, OPCODE_ADD, OPCODE_AND]

theorem execute_NOT (cs : Bool) (s : Machine) (i : Nat) (h : i >>> 12 = OPCODE_NOT) :
    execute cs s i = some (case_OPCODE_NOT s i) := by
  simp [execute, h, OPCODE_ADD, OPCODE_AND, OPCODE_NOT]

theorem execute_BR (cs : Bool) (s : Machine) (i : Nat) (h : i >>> 12 = OPCODE_BR) :
    execute cs s i = some (case_OPCODE_BR s i) := by
  simp [execute, h, OPCODE_ADD, OPCODE_AND, OPCODE_NOT, OPCODE_BR]

theorem execute_JMP (cs : Bool) (s : Machine) (i : Nat) (h : i >>> 12 = OPCODE_JMP) :
    execute cs s i = some (case_OPCODE_JMP s i) := by
  simp [execute, h, OPCODE_ADD, OPCODE_AND, OPCODE_NOT, OPCODE_BR, OPCODE_JMP]

theorem execute_JSR (cs : Bool) (s : Machine) (i : Nat) (h : i >>> 12 = OPCODE_JSR) :
    execute cs s i = some (case_OPCODE_JSR s i) := by
  simp [execute, h, OPCODE_ADD, OPCODE_AND, OPCODE_NOT, OPCODE_BR, OPCODE_JMP, OPCODE_JSR]

theorem execute_LD (cs : Bool) (s : Machine) (i : Nat) (h : i >>> 12 = OPCODE_LD) :
    execute cs s i = some (case_OPCODE_LD s i) := by
  simp [execute, h, OPCODE_ADD, OPCODE_AND, OPCODE_NOT, OPCODE_BR, OPCODE_JMP, OPCODE_JSR,
    OPCODE_LD]

theorem execute_LDI (cs : Bool) (s : Machine) (i : Nat) (h : i >>> 12 = OPCODE_LDI) :
    execute cs s i = some (case_OPCODE_LDI s i) := by
  simp [execute, h, OPCODE_ADD, OPCODE_AND, OPCODE_NOT, OPCODE_BR, OPCODE_JMP, OPCODE_JSR,
    OPCODE_LD, OPCODE_LDI]

theorem execute_LDR (cs : Bool) (s : Machine) (i : Nat) (h : i >>> 12 = OPCODE_LDR) :
    execute cs s i = some (case_OPCODE_LDR s i) := by
  simp [execute, h, OPCODE_ADD, OPCODE_AND, OPCODE_NOT, OPCODE_BR, OPCODE_JMP, OPCODE_JSR,
    OPCODE_LD, OPCODE_LDI, OPCODE_LDR]

theorem execute_LEA (cs : Bool) (s : Machine) (i : Nat) (h : i >>> 12 = OPCODE_LEA) :
    execute cs s i = some (case_OPCODE_LEA s i) := by
  simp [execute, h, OPCODE_ADD, OPCODE_AND, OPCODE_NOT, OPCODE_BR, OPCODE_JMP, OPCODE_JSR,
    OPCODE_LD, OPCODE_LDI, OPCODE_LDR, OPCODE_LEA]

theorem execute_ST (cs : Bool) (s : Machine) (i : Nat) (h : i >>> 12 = OPCODE_ST) :
    execute cs s i = some (case_OPCODE_ST s i) := by
  simp [execute, h, OPCODE_ADD, OPCODE_AND, OPCODE_NOT, OPCODE_BR, OPCODE_JMP, OPCODE_JSR,
    OPCODE_LD, OPCODE_LDI, OPCODE_LDR, OPCODE_LEA, OPCODE_ST]

theorem execute_STI (cs : Bool) (s : Machine) (i : Nat) (h : i >>> 12 = OPCODE_STI) :
    execute cs s i = some (case_OPCODE_STI s i) := by
  simp [execute, h, OPCODE_ADD, OPCODE_AND, OPCODE_NOT, OPCODE_BR, OPCODE_JMP, OPCODE_JSR,
    OPCODE_LD, OPCODE_LDI, OPCODE_LDR, OPCODE_LEA, OPCODE_ST, OPCODE_STI]

theorem execute_STR (cs : Bool) (s : Machine) (i : Nat) (h : i >>> 12 = OPCODE_STR) :
    execute cs s i = some (case_OPCODE_STR s i) := by
  simp [execute, h, OPCODE_ADD, OPCODE_AND, OPCODE_NOT, OPCODE_BR, OPCODE_JMP, OPCODE_JSR,
    OPCODE_LD, OPCODE_LDI, OPCODE_LDR, OPCODE_LEA, OPCODE_ST, OPCODE_STI, OPCODE_STR]

theorem execute_TRAP (cs : Bool) (s : Machine) (i : Nat) (h : i >>> 12 = OPCODE_TRAP) :
    execute cs s i = case_OPCODE_TRAP cs s i := by
  simp [execute, h, OPCODE_ADD, OPCODE_AND, OPCODE_NOT, OPCODE_BR, OPCODE_JMP, OPCODE_JSR,
    OPCODE_LD, OPCODE_LDI, OPCODE_LDR, OPCODE_LEA, OPCODE_ST, OPCODE_STI, OPCODE_STR, OPCODE_TRAP]

theorem execute_invalid (cs : Bool) (s : Machine) (i : Nat)
    (h : i >>> 12 = OPCODE_RTI ∨ i >>> 12 = OPCODE_RES) :
    execute cs s i = some (case_invalid s) := by
  rcases h with h | h <;>
  simp [execute, h, OPCODE_ADD, OPCODE_AND, OPCODE_NOT, OPCODE_BR, OPCODE_JMP, OPCODE_JSR,
    OPCODE_LD, OPCODE_LDI, OPCODE_LDR, OPCODE_LEA, OPCODE_ST, OPCODE_STI, OPCODE_STR, OPCODE_TRAP,
    OPCODE_RTI, OPCODE_RES]

/-! ## Condition flags -/

theorem flag_of_sign_cases (v : Nat) (hv : v < 65536) :
    flag_of_sign v =
      if v = 0 then FLAG_ZRO_Z else if 32768 ≤ v then FLAG_NEG_N else FLAG_POS_P := by
  unfold flag_of_sign signed_field
  rw [Nat.mod_eq_of_lt (by norm_num; exact hv)]
  norm_num
  split_ifs <;> first | rfl | omega

theorem testBit_15 (v : Nat) (hv : v < 65536) : v.testBit 15 = decide (32768 ≤ v) := by
  rw [Nat.testBit_to_div_mod]
  congr 1
  apply propext
  omega

theorem update_flags_eq (s : Machine) (r : Nat) (h : s.registers r < 65536) :
    update_flags s r = set_register s REGISTER_COND (flag_of_sign (s.registers r)) := by
  unfold update_flags
  rw [flag_of_sign_cases _ h, Nat.shiftRight_eq_div_pow]
  by_cases h0 : s.registers r = 0
  · simp [h0]
  · by_cases h1 : 32768 ≤ s.registers r
    · have h2 : s.registers r / 2 ^ 15 ≠ 0 := by omega
      rw [if_neg h0, if_pos h2, if_neg h0, if_pos h1]
    · have h2 : ¬ s.registers r / 2 ^ 15 ≠ 0 := by omega
      rw [if_neg h0, if_neg h2, if_neg h0, if_neg h1]

theorem flag_of_sign_iff (v : Nat) (hv : v < 65536) :
    (flag_of_sign v = FLAG_NEG_N ∨ flag_of_sign v = FLAG_ZRO_Z ∨ flag_of_sign v = FLAG_POS_P) ∧
    (flag_of_sign v = FLAG_ZRO_Z ↔ v = 0) ∧
    (flag_of_sign v = FLAG_NEG_N ↔ v.testBit 15 = true) ∧
    (flag_of_sign v = FLAG_POS_P ↔ (v ≠ 0 ∧ v.testBit 15 = false)) := by
  rw [flag_of_sign_cases v hv, testBit_15 v hv]
  by_cases h0 : v = 0
  · subst h0
    simp [FLAG_ZRO_Z, FLAG_NEG_N, FLAG_POS_P]
  · by_cases h1 : 32768 ≤ v
    · simp [h0, h1, FLAG_ZRO_Z, FLAG_NEG_N, FLAG_POS_P]
    · simp [h0, h1, FLAG_ZRO_Z, FLAG_NEG_N, FLAG_POS_P]

theorem flags_after_write (s : Machine) (d v : Nat) (hv : v < 65536) :
    (update_flags (set_register s d v) d).registers
      = Function.update (Function.update s.registers d v) REGISTER_COND (flag_of_sign v) := by
  have h : (set_register s d v).registers d = v := by simp [set_register]
  rw [update_flags_eq _ _ (by rw [h]; exact hv), h]
  rfl

/-! ## C1: flags after a register write -/

theorem execute_flag_form (cs : Bool) (s : Machine) (i : Nat) (hs : s.WF)
    (hop : i >>> 12 ∈ [OPCODE_ADD, OPCODE_AND, OPCODE_NOT, OPCODE_LD, OPCODE_LDI, OPCODE_LDR,
      OPCODE_LEA]) :
    ∃ s2 v, v < 65536 ∧
      execute cs s i
        = some (update_flags (set_register s2 ((i >>> 9) &&& 0x7) v) ((i >>> 9) &&& 0x7)) ∧
      (i >>> 12 = OPCODE_NOT →
        v = uint16_of_int (-(s.registers ((i >>> 6) &&& 0x7) : Int) - 1)) := by
  simp only [List.mem_cons, List.mem_singleton, List.not_mem_nil, or_false] at hop
  rcases hop with h | h | h | h | h | h | h
  · rw [execute_ADD cs s i h]
    unfold case_OPCODE_ADD
    by_cases hi : (i >>> 5) &&& 0x1 ≠ 0
    · exact ⟨s, uint16 (s.registers ((i >>> 6) &&& 0x7) + sign_extend (i &&& 0x1F) 5),
        uint16_lt _, by simp only [if_pos hi], fun hn => absurd (h.symm.trans hn) (by decide)⟩
    · exact ⟨s, uint16 (s.registers ((i >>> 6) &&& 0x7) + s.registers (i &&& 0x7)),
        uint16_lt _, by simp only [if_neg hi], fun hn => absurd (h.symm.trans hn) (by decide)⟩
  · rw [execute_AND cs s i h]
    unfold case_OPCODE_AND
    by_cases hi : (i >>> 5) &&& 0x1 ≠ 0
    · exact ⟨s, uint16 (s.registers ((i >>> 6) &&& 0x7) &&& sign_extend (i &&& 0x1F) 5),
        uint16_lt _, by simp only [if_pos hi], fun hn => absurd (h.symm.trans hn) (by decide)⟩
    · exact ⟨s, uint16 (s.registers ((i >>> 6) &&& 0x7) &&& s.registers (i &&& 0x7)),
        uint16_lt _, by simp only [if_neg hi], fun hn => absurd (h.symm.trans hn) (by decide)⟩
  · rw [execute_NOT cs s i h]
    exact ⟨s, _, uint16_of_int_lt _, rfl, fun _ => rfl⟩
  · rw [execute_LD cs s i h]
    exact ⟨_, _, memory_read_lt s _ hs, rfl, fun hn => absurd (h.symm.trans hn) (by decide)⟩
  · rw [execute_LDI cs s i h]
    exact ⟨_, _, memory_read_lt _ _ (memory_read_WF s _ hs), rfl,
      fun hn => absurd (h.symm.trans hn) (by decide)⟩
  · rw [execute_LDR cs s i h]
    exact ⟨_, _, memory_read_lt s _ hs, rfl, fun hn => absurd (h.symm.trans hn) (by decide)⟩
  · rw [execute_LEA cs s i h]
    exact ⟨s, _, uint16_lt _, rfl, fun hn => absurd (h.symm.trans hn) (by decide)⟩

theorem fetch_register_of_ne (s : Machine) (r : Nat) (h : r ≠ REGISTER_PC) :
    (fetch s).2.registers r = s.registers r := by
  rw [fetch_registers, Function.update_noteq h]

theorem field_ne_PC (x n : Nat) : (x >>> n) &&& 0x7 ≠ REGISTER_PC := by
  have := shifted_field_lt x n
  unfold REGISTER_PC
  omega

theorem field_ne_COND (x n : Nat) : (x >>> n) &&& 0x7 ≠ REGISTER_COND := by
  have := shifted_field_lt x n
  unfold REGISTER_COND
  omega

/-- C1. For every well-formed machine state, if the fetched instruction has one
of the opcodes ADD, AND, NOT, LD, LDI, LDR, LEA, the step is defined and
afterwards the condition-code register holds exactly one of N, Z, P, chosen by
the 16-bit value `v` now in the destination register (bits 11..9) read as two's
complement: Z iff `v = 0`, N iff bit 15 of `v` is set, P otherwise. A NOT whose
source register holds 0 leaves `0xFFFF` in the destination with N set. -/
theorem flags_after_register_write (cs : Bool) (s : Machine) (hs : s.WF)
    (hop : (fetch s).1 >>> 12 ∈ [OPCODE_ADD, OPCODE_AND, OPCODE_NOT, OPCODE_LD, OPCODE_LDI,
      OPCODE_LDR, OPCODE_LEA]) :
    ∃ s1, step cs s = some s1 ∧
      s1.registers (((fetch s).1 >>> 9) &&& 0x7) < 65536 ∧
      s1.registers REGISTER_COND = flag_of_sign (s1.registers (((fetch s).1 >>> 9) &&& 0x7)) ∧
      (s1.registers REGISTER_COND = FLAG_NEG_N ∨ s1.registers REGISTER_COND = FLAG_ZRO_Z ∨
        s1.registers REGISTER_COND = FLAG_POS_P) ∧
      (s1.registers REGISTER_COND = FLAG_ZRO_Z ↔
        s1.registers (((fetch s).1 >>> 9) &&& 0x7) = 0) ∧
      (s1.registers REGISTER_COND = FLAG_NEG_N ↔
        (s1.registers (((fetch s).1 >>> 9) &&& 0x7)).testBit 15 = true) ∧
      (s1.registers REGISTER_COND = FLAG_POS_P ↔
        (s1.registers (((fetch s).1 >>> 9) &&& 0x7) ≠ 0 ∧
          (s1.registers (((fetch s).1 >>> 9) &&& 0x7)).testBit 15 = false)) ∧
      ((fetch s).1 >>> 12 = OPCODE_NOT → s.registers (((fetch s).1 >>> 6) &&& 0x7) = 0 →
        s1.registers (((fetch s).1 >>> 9) &&& 0x7) = 0xFFFF ∧
          s1.registers REGISTER_COND = FLAG_NEG_N) := by
  obtain ⟨s2, v, hv, hex, hnot⟩ := execute_flag_form cs (fetch s).2 (fetch s).1 (fetch_WF s hs) hop
  refine ⟨_, by rw [step_eq]; exact hex, ?_⟩
  have hd : ((fetch s).1 >>> 9) &&& 0x7 ≠ REGISTER_COND := field_ne_COND _ _
  have hregs := flags_after_write s2 (((fetch s).1 >>> 9) &&& 0x7) v hv
  have h1 : (update_flags (set_register s2 (((fetch s).1 >>> 9) &&& 0x7) v)
      (((fetch s).1 >>> 9) &&& 0x7)).registers (((fetch s).1 >>> 9) &&& 0x7) = v := by
    rw [hregs, Function.update_noteq hd, Function.update_same]
  have h2 : (update_flags (set_register s2 (((fetch s).1 >>> 9) &&& 0x7) v)
      (((fetch s).1 >>> 9) &&& 0x7)).registers REGISTER_COND = flag_of_sign v := by
    rw [hregs, Function.update_same]
  rw [h1, h2]
  obtain ⟨f1, f2, f3, f4⟩ := flag_of_sign_iff v hv
  refine ⟨hv, rfl, f1, f2, f3, f4, ?_⟩
  intro hn h0
  have hv' := hnot hn
  rw [fetch_register_of_ne s _ (field_ne_PC _ _), h0] at hv'
  subst hv'
  exact ⟨by decide, by decide⟩

/-- C1, an instance of `flags_after_register_write`: `NOT R0, R0` with
`R0 = 0` leaves `0xFFFF` in `R0` and sets N. -/
theorem flags_after_register_write_witness :
    ∃ s1, step true example_NOT = some s1 ∧ s1.registers REGISTER_R0 = 0xFFFF ∧
      s1.registers REGISTER_COND = FLAG_NEG_N := by
  obtain ⟨s1, h1, _, _, _, _, _, _, h8⟩ :=
    flags_after_register_write true example_NOT
      (machine_of_WF _ _ _ _ (by decide) (by decide) (by decide)) (by decide)
  exact ⟨s1, h1, h8 (by decide) (by decide)⟩

/-! ## C2: the condition code always holds exactly one flag -/

theorem update_flags_cond (s : Machine) (r : Nat) :
    (update_flags s r).registers REGISTER_COND = FLAG_POS_P ∨
    (update_flags s r).registers REGISTER_COND = FLAG_ZRO_Z ∨
    (update_flags s r).registers REGISTER_COND = FLAG_NEG_N := by
  unfold update_flags
  split
  · exact Or.inr (Or.inl (by simp [set_register]))
  · split
    · exact Or.inr (Or.inr (by simp [set_register]))
    · exact Or.inl (by simp [set_register])

theorem puts_loop_frame (cs : Bool) (fuel : Nat) :
    ∀ (s : Machine) (a : Nat) (s1 : Machine), puts_loop cs s fuel a = some s1 →
      ∃ out, s1 = { s with stdout := s.stdout ++ out } := by
  induction fuel with
  | zero => intro s a s1 h; simp [puts_loop] at h
  | succ fuel ih =>
    intro s a s1 h
    rw [puts_loop] at h
    split at h
    · simp at h
    · split at h
      · refine ⟨[], ?_⟩
        simp only [Option.some.injEq] at h
        rw [← h]
        simp
      · obtain ⟨out, hout⟩ := ih _ _ _ h
        refine ⟨StdoutEvent.putc (uchar_of_int (char_of_int cs (s.memory a))) :: out, ?_⟩
        rw [hout]
        simp [putc]

theorem putsp_loop_frame (cs : Bool) (fuel : Nat) :
    ∀ (s : Machine) (a : Nat) (s1 : Machine), putsp_loop cs s fuel a = some s1 →
      ∃ out, s1 = { s with stdout := s.stdout ++ out } := by
  induction fuel with
  | zero => intro s a s1 h; simp [putsp_loop] at h
  | succ fuel ih =>
    intro s a s1 h
    rw [putsp_loop] at h
    split at h
    · simp at h
    · split at h
      · refine ⟨[], ?_⟩
        simp only [Option.some.injEq] at h
        rw [← h]
        simp
      · obtain ⟨out, hout⟩ := ih _ _ _ h
        rw [hout]
        by_cases hc : char_of_int cs ((s.memory a >>> 8 : Nat) : Int) ≠ 0
        · refine ⟨StdoutEvent.putc (uchar_of_int (char_of_int cs ((s.memory a &&& 0xFF : Nat) : Int)))
            :: StdoutEvent.putc (uchar_of_int (char_of_int cs ((s.memory a >>> 8 : Nat) : Int)))
            :: out, ?_⟩
          simp only [if_pos hc]
          simp [putc]
        · refine ⟨StdoutEvent.putc (uchar_of_int (char_of_int cs ((s.memory a &&& 0xFF : Nat) : Int)))
            :: out, ?_⟩
          simp only [if_neg hc]
          simp [putc]

/-- What one trap does to the condition code: it keeps it or sets one flag. -/
theorem trap_cond (cs : Bool) (s : Machine) (i : Nat) (s1 : Machine)
    (h : case_OPCODE_TRAP cs s i = some s1) :
    s1.registers REGISTER_COND = s.registers REGISTER_COND ∨
    s1.registers REGISTER_COND = FLAG_POS_P ∨ s1.registers REGISTER_COND = FLAG_ZRO_Z ∨
    s1.registers REGISTER_COND = FLAG_NEG_N := by
  unfold case_OPCODE_TRAP at h
  simp only at h
  split at h
  · simp only [Option.some.injEq] at h
    rw [← h]
    exact Or.inr (update_flags_cond _ _)
  · split at h
    · simp only [Option.some.injEq] at h
      rw [← h]
      exact Or.inl rfl
    · split at h
      · simp only [Option.some.injEq] at h
        rw [← h]
        exact Or.inr (update_flags_cond _ _)
      · split at h
        · simp only [Option.map_eq_some'] at h
          obtain ⟨s2, h2, h3⟩ := h
          obtain ⟨out, hout⟩ := puts_loop_frame _ _ _ _ _ h2
          rw [← h3, hout]
          exact Or.inl rfl
        · split at h
          · simp only [Option.map_eq_some'] at h
            obtain ⟨s2, h2, h3⟩ := h
            obtain ⟨out, hout⟩ := putsp_loop_frame _ _ _ _ _ h2
            rw [← h3, hout]
            exact Or.inl rfl
          · split at h
            · simp only [Option.some.injEq] at h
              rw [← h]
              exact Or.inl rfl
            · simp only [Option.some.injEq] at h
              rw [← h]
              exact Or.inl rfl

theorem set_register_cond (s : Machine) (r v : Nat) (h : r ≠ REGISTER_COND) :
    (set_register s r v).registers REGISTER_COND = s.registers REGISTER_COND := by
  show Function.update s.registers r v REGISTER_COND = _
  rw [Function.update_noteq (Ne.symm h)]

theorem case_BR_cond (s : Machine) (i : Nat) :
    (case_OPCODE_BR s i).registers REGISTER_COND = s.registers REGISTER_COND := by
  unfold case_OPCODE_BR
  simp only
  split
  · exact set_register_cond _ _ _ (by decide)
  · rfl

theorem case_JMP_cond (s : Machine) (i : Nat) :
    (case_OPCODE_JMP s i).registers REGISTER_COND = s.registers REGISTER_COND :=
  set_register_cond _ _ _ (by decide)

theorem case_JSR_cond (s : Machine) (i : Nat) :
    (case_OPCODE_JSR s i).registers REGISTER_COND = s.registers REGISTER_COND := by
  unfold case_OPCODE_JSR
  simp only
  split
  · rw [set_register_cond _ _ _ (by decide), set_register_cond _ _ _ (by decide)]
  · rw [set_register_cond _ _ _ (by decide), set_register_cond _ _ _ (by decide)]

theorem case_STI_registers (s : Machine) (i : Nat) :
    (case_OPCODE_STI s i).registers = s.registers :=
  memory_read_registers s _

theorem execute_default (cs : Bool) (s : Machine) (i : Nat)
    (h : i >>> 12 ∉ [OPCODE_ADD, OPCODE_AND, OPCODE_NOT, OPCODE_BR, OPCODE_JMP, OPCODE_JSR,
      OPCODE_LD, OPCODE_LDI, OPCODE_LDR, OPCODE_LEA, OPCODE_ST, OPCODE_STI, OPCODE_STR,
      OPCODE_TRAP]) :
    execute cs s i = some (case_invalid s) := by
  simp only [List.mem_cons, List.mem_singleton, List.not_mem_nil, or_false, not_or] at h
  obtain ⟨h1, h2, h3, h4, h5, h6, h7, h8, h9, h10, h11, h12, h13, h14⟩ := h
  unfold execute
  simp only [if_neg h1, if_neg h2, if_neg h3, if_neg h4, if_neg h5, if_neg h6, if_neg h7,
    if_neg h8, if_neg h9, if_neg h10, if_neg h11, if_neg h12, if_neg h13, if_neg h14]

/-- What one executed instruction does to the condition code: it keeps it or
sets exactly one flag. -/
theorem execute_cond (cs : Bool) (s : Machine) (i : Nat) (s1 : Machine)
    (h : execute cs s i = some s1) :
    s1.registers REGISTER_COND = s.registers REGISTER_COND ∨
    s1.registers REGISTER_COND = FLAG_POS_P ∨ s1.registers REGISTER_COND = FLAG_ZRO_Z ∨
    s1.registers REGISTER_COND = FLAG_NEG_N := by
  by_cases hmem : i >>> 12 ∈ [OPCODE_ADD, OPCODE_AND, OPCODE_NOT, OPCODE_BR, OPCODE_JMP,
      OPCODE_JSR, OPCODE_LD, OPCODE_LDI, OPCODE_LDR, OPCODE_LEA, OPCODE_ST, OPCODE_STI,
      OPCODE_STR, OPCODE_TRAP]
  · simp only [List.mem_cons, List.mem_singleton, List.not_mem_nil, or_false] at hmem
    rcases hmem with h1 | h1 | h1 | h1 | h1 | h1 | h1 | h1 | h1 | h1 | h1 | h1 | h1 | h1
    · rw [execute_ADD cs s i h1, Option.some.injEq] at h
      subst h
      exact Or.inr (update_flags_cond _ _)
    · rw [execute_AND cs s i h1, Option.some.injEq] at h
      subst h
      exact Or.inr (update_flags_cond _ _)
    · rw [execute_NOT cs s i h1, Option.some.injEq] at h
      subst h
      exact Or.inr (update_flags_cond _ _)
    · rw [execute_BR cs s i h1, Option.some.injEq] at h
      subst h
      exact Or.inl (case_BR_cond s i)
    · rw [execute_JMP cs s i h1, Option.some.injEq] at h
      subst h
      exact Or.inl (case_JMP_cond s i)
    · rw [execute_JSR cs s i h1, Option.some.injEq] at h
      subst h
      exact Or.inl (case_JSR_cond s i)
    · rw [execute_LD cs s i h1, Option.some.injEq] at h
      subst h
      exact Or.inr (update_flags_cond _ _)
    · rw [execute_LDI cs s i h1, Option.some.injEq] at h
      subst h
      exact Or.inr (update_flags_cond _ _)
    · rw [execute_LDR cs s i h1, Option.some.injEq] at h
      subst h
      exact Or.inr (update_flags_cond _ _)
    · rw [execute_LEA cs s i h1, Option.some.injEq] at h
      subst h
      exact Or.inr (update_flags_cond _ _)
    · rw [execute_ST cs s i h1, Option.some.injEq] at h
      subst h
      exact Or.inl rfl
    · rw [execute_STI cs s i h1, Option.some.injEq] at h
      subst h
      exact Or.inl (congrFun (case_STI_registers s i) _)
    · rw [execute_STR cs s i h1, Option.some.injEq] at h
      subst h
      exact Or.inl rfl
    · rw [execute_TRAP cs s i h1] at h
      exact trap_cond cs s i s1 h
  · rw [execute_default cs s i hmem, Option.some.injEq] at h
    subst h
    exact Or.inl rfl

theorem step_cond (cs : Bool) (s s1 : Machine) (h : step cs s = some s1) :
    s1.registers REGISTER_COND = s.registers REGISTER_COND ∨
    s1.registers REGISTER_COND = FLAG_POS_P ∨ s1.registers REGISTER_COND = FLAG_ZRO_Z ∨
    s1.registers REGISTER_COND = FLAG_NEG_N := by
  rw [step_eq] at h
  have h1 := execute_cond cs _ _ _ h
  rwa [fetch_register_of_ne s _ (by decide)] at h1

theorem cycles_cond (cs : Bool) (n : Nat) :
    ∀ s s1 : Machine, cycles cs n s = some s1 →
      (s.registers REGISTER_COND = FLAG_POS_P ∨ s.registers REGISTER_COND = FLAG_ZRO_Z ∨
        s.registers REGISTER_COND = FLAG_NEG_N) →
      (s1.registers REGISTER_COND = FLAG_POS_P ∨ s1.registers REGISTER_COND = FLAG_ZRO_Z ∨
        s1.registers REGISTER_COND = FLAG_NEG_N) := by
  induction n with
  | zero =>
    intro s s1 h hs
    simp only [cycles, Option.some.injEq] at h
    rw [← h]
    exact hs
  | succ n ih =>
    intro s s1 h hs
    rw [cycles] at h
    split at h
    · split at h
      · simp at h
      · next s2 hstep =>
        refine ih s2 s1 h ?_
        rcases step_cond cs s s2 hstep with h2 | h2
        · rw [h2]; exact hs
        · exact h2
    · simp only [Option.some.injEq] at h
      rw [← h]
      exact hs

/-- C2. From the initial state set up by `main` (condition code Z, program
counter `0x3000`), whatever the memory contents and the input, after any number
of iterations of the executor loop the condition-code register equals exactly
one of 1 (P), 2 (Z), 4 (N). -/
theorem condition_code_invariant (cs : Bool) (s0 : Machine) (n : Nat) (s : Machine)
    (h : cycles cs n (boot s0) = some s) :
    (boot s0).registers REGISTER_COND = FLAG_ZRO_Z ∧
    (boot s0).registers REGISTER_PC = 0x3000 ∧
    (boot s0).memory = s0.memory ∧ (boot s0).stdin = s0.stdin ∧ (boot s0).ready = s0.ready ∧
    (s.registers REGISTER_COND = 1 ∨ s.registers REGISTER_COND = 2 ∨
      s.registers REGISTER_COND = 4) := by
  have hb : (boot s0).registers REGISTER_COND = FLAG_ZRO_Z := by
    simp [boot, set_register, disable_input_buffering, REGISTER_COND, REGISTER_PC]
  refine ⟨hb, ?_, rfl, rfl, rfl, ?_⟩
  · simp [boot, set_register, PC_START]
  · exact cycles_cond cs n _ s h (Or.inr (Or.inl hb))

/-- C2, an instance of `condition_code_invariant`: the program
`ADD R1, R1, #0; TRAP HALT`, run for two iterations. -/
theorem condition_code_invariant_witness :
    ∃ s, cycles true 2 (boot example_add_halt) = some s ∧ s.running = false ∧
      (s.registers REGISTER_COND = 1 ∨ s.registers REGISTER_COND = 2 ∨
        s.registers REGISTER_COND = 4) :=
  ⟨_, rfl, by decide, (condition_code_invariant true example_add_halt 2 _ rfl).2.2.2.2.2⟩

/-! ## C3: program-counter-relative addresses -/

theorem step_of_fetch (cs : Bool) (s s1 : Machine) (instr : Nat) (hf : fetch s = (instr, s1)) :
    step cs s = execute cs s1 instr := by
  rw [step_eq, hf]

theorem fetch_pc (s s1 : Machine) (p instr : Nat) (hp : s.registers REGISTER_PC = p)
    (hf : fetch s = (instr, s1)) : s1.registers REGISTER_PC = (p + 1) % 65536 := by
  have h := fetch_registers s
  rw [hf, hp] at h
  simp only at h
  rw [h, Function.update_same]
  rfl

theorem fetch_register (s s1 : Machine) (instr r : Nat) (hf : fetch s = (instr, s1))
    (hr : r ≠ REGISTER_PC) : s1.registers r = s.registers r := by
  have h := fetch_register_of_ne s r hr
  rwa [hf] at h

theorem signed_field_mask (k x : Nat) : signed_field k (x &&& (2 ^ k - 1)) = signed_field k x := by
  unfold signed_field
  rw [Nat.and_pow_two_sub_one_eq_mod, Nat.mod_mod]

theorem address_off9 (s s1 : Machine) (p instr : Nat) (hp : s.registers REGISTER_PC = p)
    (hf : fetch s = (instr, s1)) :
    uint16 (s1.registers REGISTER_PC + sign_extend (instr &&& 0x1FF) 9)
      = pc_relative p (signed_field 9 instr) := by
  rw [fetch_pc s s1 p instr hp hf, ← signed_field_mask 9 instr]
  exact pc_relative_eq p (instr &&& 0x1FF) 9 (by decide)
    (Nat.lt_of_le_of_lt Nat.and_le_right (by decide))

theorem address_off11 (s s1 : Machine) (p instr : Nat) (hp : s.registers REGISTER_PC = p)
    (hf : fetch s = (instr, s1)) :
    uint16 (s1.registers REGISTER_PC + sign_extend (instr &&& 0x7FF) 11)
      = pc_relative p (signed_field 11 instr) := by
  rw [fetch_pc s s1 p instr hp hf, ← signed_field_mask 11 instr]
  exact pc_relative_eq p (instr &&& 0x7FF) 11 (by decide)
    (Nat.lt_of_le_of_lt Nat.and_le_right (by decide))

theorem update_flags_register (s : Machine) (r d : Nat) (hd : d ≠ REGISTER_COND) :
    (update_flags s r).registers d = s.registers d := by
  unfold update_flags
  split
  · exact Function.update_noteq hd _ _
  · split
    · exact Function.update_noteq hd _ _
    · exact Function.update_noteq hd _ _

theorem bit_11_flag (instr : Nat) : ((instr >>> 11) &&& 1 ≠ 0) ↔ instr.testBit 11 = true :=
  shift_and_one_ne_zero instr 11

/-- C3. Let `p` be the pre-fetch program counter (any value, `0xFFFF` included)
and `instr` the fetched instruction. After the fetch the program counter is
`(p + 1) mod 2^16`. Every PC-relative address is `(p + 1 + s) mod 2^16`, with
`s` the offset field read as a two's-complement integer of its width: a taken
BR jumps there, LD reads there, ST writes there, LDI and STI read their pointer
there, LEA stores that address in its destination (all with the 9-bit offset),
and JSR with bit 11 set jumps there (11-bit offset); JSR links
`(p + 1) mod 2^16` in R7. -/
theorem pc_relative_addressing (cs : Bool) (s s1 : Machine) (p instr : Nat)
    (hp : s.registers REGISTER_PC = p) (hf : fetch s = (instr, s1)) :
    s1.registers REGISTER_PC = (p + 1) % 65536 ∧
    (instr >>> 12 = OPCODE_BR → ((instr >>> 9) &&& 0x7) &&& s.registers REGISTER_COND ≠ 0 →
      ∃ s2, step cs s = some s2 ∧
        s2.registers REGISTER_PC = pc_relative p (signed_field 9 instr)) ∧
    (instr >>> 12 = OPCODE_LD →
      step cs s = some (update_flags
        (set_register (memory_read s1 (pc_relative p (signed_field 9 instr))).2
          ((instr >>> 9) &&& 0x7) (memory_read s1 (pc_relative p (signed_field 9 instr))).1)
        ((instr >>> 9) &&& 0x7))) ∧
    (instr >>> 12 = OPCODE_ST →
      step cs s = some (memory_write s1 (pc_relative p (signed_field 9 instr))
        (s.registers ((instr >>> 9) &&& 0x7)))) ∧
    (instr >>> 12 = OPCODE_LDI →
      step cs s = some (update_flags
        (set_register
          (memory_read (memory_read s1 (pc_relative p (signed_field 9 instr))).2
            (memory_read s1 (pc_relative p (signed_field 9 instr))).1).2
          ((instr >>> 9) &&& 0x7)
          (memory_read (memory_read s1 (pc_relative p (signed_field 9 instr))).2
            (memory_read s1 (pc_relative p (signed_field 9 instr))).1).1)
        ((instr >>> 9) &&& 0x7))) ∧
    (instr >>> 12 = OPCODE_STI →
      step cs s = some (memory_write (memory_read s1 (pc_relative p (signed_field 9 instr))).2
        (memory_read s1 (pc_relative p (signed_field 9 instr))).1
        (s.registers ((instr >>> 9) &&& 0x7)))) ∧
    (instr >>> 12 = OPCODE_LEA →
      ∃ s2, step cs s = some s2 ∧
        s2.registers ((instr >>> 9) &&& 0x7) = pc_relative p (signed_field 9 instr)) ∧
    (instr >>> 12 = OPCODE_JSR →
      ∃ s2, step cs s = some s2 ∧ s2.registers REGISTER_R7 = (p + 1) % 65536 ∧
        (instr.testBit 11 = true →
          s2.registers REGISTER_PC = pc_relative p (signed_field 11 instr))) := by
  have hpc := fetch_pc s s1 p instr hp hf
  have h9 := address_off9 s s1 p instr hp hf
  have h11 := address_off11 s s1 p instr hp hf
  have hd : s1.registers ((instr >>> 9) &&& 0x7) = s.registers ((instr >>> 9) &&& 0x7) :=
    fetch_register s s1 instr _ hf (field_ne_PC _ _)
  rw [step_of_fetch cs s s1 instr hf]
  refine ⟨hpc, ?_, ?_, ?_, ?_, ?_, ?_, ?_⟩
  · intro hop hm
    rw [execute_BR cs s1 instr hop]
    refine ⟨_, rfl, ?_⟩
    have hc : s1.registers REGISTER_COND = s.registers REGISTER_COND :=
      fetch_register s s1 instr _ hf (by decide)
    unfold case_OPCODE_BR
    simp only
    rw [hc, if_pos hm, h9]
    simp [set_register]
  · intro hop
    rw [execute_LD cs s1 instr hop]
    unfold case_OPCODE_LD
    simp only
    rw [h9]
  · intro hop
    rw [execute_ST cs s1 instr hop]
    unfold case_OPCODE_ST
    simp only
    rw [h9, hd]
  · intro hop
    rw [execute_LDI cs s1 instr hop]
    unfold case_OPCODE_LDI
    simp only
    rw [h9]
  · intro hop
    rw [execute_STI cs s1 instr hop]
    unfold case_OPCODE_STI
    simp only
    rw [h9, memory_read_registers, hd]
  · intro hop
    rw [execute_LEA cs s1 instr hop]
    refine ⟨_, rfl, ?_⟩
    unfold case_OPCODE_LEA
    simp only
    rw [update_flags_register _ _ _ (field_ne_COND _ _), h9]
    simp [set_register]
  · intro hop
    rw [execute_JSR cs s1 instr hop]
    refine ⟨_, rfl, ?_, ?_⟩
    · unfold case_OPCODE_JSR
      simp only
      split <;> simp [set_register, REGISTER_PC, REGISTER_R7] <;> exact hpc
    · intro hb
      unfold case_OPCODE_JSR
      simp only
      rw [if_pos ((bit_11_flag instr).2 hb)]
      have h7 : (set_register s1 REGISTER_R7 (s1.registers REGISTER_PC)).registers REGISTER_PC
          = s1.registers REGISTER_PC := by
        simp [set_register, REGISTER_PC, REGISTER_R7]
      rw [h7, h11]
      simp [set_register]

/-- C3, an instance of `pc_relative_addressing`: at `p = 0xFFFF` the fetch
wraps the program counter to 0, and `LEA R0, #-1` stores `0xFFFF`. -/
theorem pc_relative_addressing_witness :
    (fetch example_LEA_wrap).2.registers REGISTER_PC = 0 ∧
    ∃ s2, step true example_LEA_wrap = some s2 ∧ s2.registers REGISTER_R0 = 0xFFFF := by
  obtain ⟨h1, _, _, _, _, _, h7, _⟩ :=
    pc_relative_addressing true example_LEA_wrap (fetch example_LEA_wrap).2 0xFFFF
      (fetch example_LEA_wrap).1 rfl rfl
  obtain ⟨s2, h2, h3⟩ := h7 (by decide)
  exact ⟨h1, s2, h2, h3.trans (by decide)⟩

/-! ## C4: ADD -/

theorem bit_5_flag (instr : Nat) : ((instr >>> 5) &&& 1 ≠ 0) ↔ instr.testBit 5 = true :=
  shift_and_one_ne_zero instr 5

theorem add_imm5 (a instr : Nat) :
    uint16 (a + sign_extend (instr &&& 0x1F) 5)
      = (((a : Int) + signed_field 5 instr) % 65536).toNat := by
  rw [← signed_field_mask 5 instr]
  exact add_sign_extend a (instr &&& 0x1F) 5 (by decide)
    (Nat.lt_of_le_of_lt Nat.and_le_right (by decide))

/-- C4. For every state and every fetched ADD instruction with destination
field `d` (bits 11..9) and source field `sr` (bits 8..6): if bit 5 is 1 the
destination receives `(R[sr] + i) mod 2^16`, with `i` in `-16..15` the 5-bit
immediate read as two's complement; if bit 5 is 0 it receives
`(R[sr] + R[t]) mod 2^16` with `t` = bits 2..0 (register values taken before the
instruction); the flags are then set from the destination. So a source of
`0xFFFF` with immediate 1, and a source of `0x0001` with immediate field
`0b11111`, both give `0x0000` with flag Z. -/
theorem add_semantics (cs : Bool) (s s1 : Machine) (instr : Nat)
    (hf : fetch s = (instr, s1)) (hop : instr >>> 12 = OPCODE_ADD) :
    ∃ s2, step cs s = some s2 ∧
      (-16 ≤ signed_field 5 instr ∧ signed_field 5 instr ≤ 15) ∧
      (instr.testBit 5 = true →
        s2.registers ((instr >>> 9) &&& 0x7)
          = (((s.registers ((instr >>> 6) &&& 0x7) : Int) + signed_field 5 instr) % 65536).toNat) ∧
      (instr.testBit 5 = false →
        s2.registers ((instr >>> 9) &&& 0x7)
          = (s.registers ((instr >>> 6) &&& 0x7) + s.registers (instr &&& 0x7)) % 65536) ∧
      s2.registers REGISTER_COND = flag_of_sign (s2.registers ((instr >>> 9) &&& 0x7)) ∧
      (instr.testBit 5 = true → s.registers ((instr >>> 6) &&& 0x7) = 0xFFFF →
        instr &&& 0x1F = 1 →
        s2.registers ((instr >>> 9) &&& 0x7) = 0 ∧ s2.registers REGISTER_COND = FLAG_ZRO_Z) ∧
      (instr.testBit 5 = true → s.registers ((instr >>> 6) &&& 0x7) = 0x0001 →
        instr &&& 0x1F = 0x1F →
        s2.registers ((instr >>> 9) &&& 0x7) = 0 ∧ s2.registers REGISTER_COND = FLAG_ZRO_Z) := by
  have hsr : s1.registers ((instr >>> 6) &&& 0x7) = s.registers ((instr >>> 6) &&& 0x7) :=
    fetch_register s s1 instr _ hf (field_ne_PC _ _)
  have ht : s1.registers (instr &&& 0x7) = s.registers (instr &&& 0x7) :=
    fetch_register s s1 instr _ hf (by
      have : instr &&& 0x7 ≤ 7 := Nat.and_le_right
      unfold REGISTER_PC
      omega)
  have hrange := signed_field_range instr 5 (by decide)
  -- the value stored in the destination
  obtain ⟨v, hv, hcase, himm, hreg⟩ : ∃ v, v < 65536 ∧
      case_OPCODE_ADD s1 instr
        = update_flags (set_register s1 ((instr >>> 9) &&& 0x7) v) ((instr >>> 9) &&& 0x7) ∧
      (instr.testBit 5 = true →
        v = (((s.registers ((instr >>> 6) &&& 0x7) : Int) + signed_field 5 instr) % 65536).toNat) ∧
      (instr.testBit 5 = false →
        v = (s.registers ((instr >>> 6) &&& 0x7) + s.registers (instr &&& 0x7)) % 65536) := by
    unfold case_OPCODE_ADD
    by_cases hi : (instr >>> 5) &&& 0x1 ≠ 0
    · have hb := (bit_5_flag instr).1 hi
      refine ⟨uint16 (s1.registers ((instr >>> 6) &&& 0x7) + sign_extend (instr &&& 0x1F) 5),
        uint16_lt _, by simp only [if_pos hi], ?_, ?_⟩
      · intro _
        rw [hsr, add_imm5]
      · intro hb'
        rw [hb] at hb'
        exact absurd hb' (by decide)
    · have hb : instr.testBit 5 = false := by
        rw [← Bool.not_eq_true]
        exact fun h => hi ((bit_5_flag instr).2 h)
      refine ⟨uint16 (s1.registers ((instr >>> 6) &&& 0x7) + s1.registers (instr &&& 0x7)),
        uint16_lt _, by simp only [if_neg hi], ?_, ?_⟩
      · intro hb'
        rw [hb] at hb'
        exact absurd hb' (by decide)
      · intro _
        rw [hsr, ht]
        rfl
  rw [step_of_fetch cs s s1 instr hf, execute_ADD cs s1 instr hop, hcase]
  refine ⟨_, rfl, ?_⟩
  have hregs := flags_after_write s1 ((instr >>> 9) &&& 0x7) v hv
  have hd : (update_flags (set_register s1 ((instr >>> 9) &&& 0x7) v)
      ((instr >>> 9) &&& 0x7)).registers ((instr >>> 9) &&& 0x7) = v := by
    rw [hregs, Function.update_noteq (field_ne_COND _ _), Function.update_same]
  have hc : (update_flags (set_register s1 ((instr >>> 9) &&& 0x7) v)
      ((instr >>> 9) &&& 0x7)).registers REGISTER_COND = flag_of_sign v := by
    rw [hregs, Function.update_same]
  rw [hd, hc]
  have hmask : signed_field 5 (instr &&& 0x1F) = signed_field 5 instr := signed_field_mask 5 instr
  refine ⟨⟨by simpa using hrange.1, by have := hrange.2; norm_num at this; omega⟩, himm, hreg,
    rfl, ?_, ?_⟩
  · intro hb hs0 hi
    have hv0 : v = 0 := by
      rw [himm hb, hs0, ← hmask, hi]
      decide
    subst hv0
    exact ⟨rfl, by decide⟩
  · intro hb hs0 hi
    have hv0 : v = 0 := by
      rw [himm hb, hs0, ← hmask, hi]
      decide
    subst hv0
    exact ⟨rfl, by decide⟩

/-- C4, an instance of `add_semantics`: `ADD R0, R0, #-1` with `R0 = 1` gives
`R0 = 0` and flag Z. -/
theorem add_semantics_witness :
    ∃ s2, step true example_ADD_minus_one = some s2 ∧ s2.registers REGISTER_R0 = 0 ∧
      s2.registers REGISTER_COND = FLAG_ZRO_Z := by
  obtain ⟨s2, h1, _, _, _, _, _, h7⟩ :=
    add_semantics true example_ADD_minus_one (fetch example_ADD_minus_one).2
      (fetch example_ADD_minus_one).1 rfl (by decide)
  exact ⟨s2, h1, h7 (by decide) (by decide) (by decide)⟩

/-! ## C6: BR -/

theorem mask_and_flag (m : Nat) (hm : m < 8) :
    ((m &&& 4 ≠ 0) ↔ m / 4 % 2 = 1) ∧ ((m &&& 2 ≠ 0) ↔ m / 2 % 2 = 1) ∧
      ((m &&& 1 ≠ 0) ↔ m % 2 = 1) := by
  interval_cases m <;> decide

theorem br_mask_selects (instr : Nat) :
    ((((instr >>> 9) &&& 0x7) &&& FLAG_NEG_N ≠ 0) ↔ instr.testBit 11 = true) ∧
    ((((instr >>> 9) &&& 0x7) &&& FLAG_ZRO_Z ≠ 0) ↔ instr.testBit 10 = true) ∧
    ((((instr >>> 9) &&& 0x7) &&& FLAG_POS_P ≠ 0) ↔ instr.testBit 9 = true) := by
  obtain ⟨h4, h2, h1⟩ := mask_and_flag ((instr >>> 9) &&& 0x7) (shifted_field_lt instr 9)
  have hm : (instr >>> 9) &&& 0x7 = instr / 512 % 8 := by
    rw [Nat.shiftRight_eq_div_pow]
    exact Nat.and_pow_two_sub_one_eq_mod _ 3
  have e4 : FLAG_NEG_N = 4 := rfl
  have e2 : FLAG_ZRO_Z = 2 := rfl
  have e1 : FLAG_POS_P = 1 := rfl
  rw [e4, e2, e1, h4, h2, h1, hm]
  simp only [Nat.testBit_to_div_mod, decide_eq_true_eq]
  refine ⟨?_, ?_, ?_⟩ <;> norm_num <;> omega

/-- C6. For every state whose condition code is one of N, Z, P and every
fetched BR instruction, with `p` the pre-fetch program counter: the program
counter after the step is `(p + 1 + off9) mod 2^16` if the flag currently set is
selected by the mask (bit 11 selects N, bit 10 selects Z, bit 9 selects P), and
`(p + 1) mod 2^16` otherwise; so mask 0 never branches and mask 7 always
branches. No general-purpose register and not the condition code is changed. -/
theorem br_semantics (cs : Bool) (s s1 : Machine) (p instr : Nat)
    (hp : s.registers REGISTER_PC = p) (hf : fetch s = (instr, s1))
    (hop : instr >>> 12 = OPCODE_BR)
    (hc : s.registers REGISTER_COND = FLAG_NEG_N ∨ s.registers REGISTER_COND = FLAG_ZRO_Z ∨
      s.registers REGISTER_COND = FLAG_POS_P) :
    ∃ s2, step cs s = some s2 ∧
      (((s.registers REGISTER_COND = FLAG_NEG_N ∧ instr.testBit 11 = true) ∨
        (s.registers REGISTER_COND = FLAG_ZRO_Z ∧ instr.testBit 10 = true) ∨
        (s.registers REGISTER_COND = FLAG_POS_P ∧ instr.testBit 9 = true)) →
        s2.registers REGISTER_PC = pc_relative p (signed_field 9 instr)) ∧
      (¬ ((s.registers REGISTER_COND = FLAG_NEG_N ∧ instr.testBit 11 = true) ∨
        (s.registers REGISTER_COND = FLAG_ZRO_Z ∧ instr.testBit 10 = true) ∨
        (s.registers REGISTER_COND = FLAG_POS_P ∧ instr.testBit 9 = true)) →
        s2.registers REGISTER_PC = (p + 1) % 65536) ∧
      ((instr >>> 9) &&& 0x7 = 0 → s2.registers REGISTER_PC = (p + 1) % 65536) ∧
      ((instr >>> 9) &&& 0x7 = 7 →
        s2.registers REGISTER_PC = pc_relative p (signed_field 9 instr)) ∧
      (∀ r, r ≠ REGISTER_PC → s2.registers r = s.registers r) := by
  have hpc := fetch_pc s s1 p instr hp hf
  have h9 := address_off9 s s1 p instr hp hf
  have hcond : s1.registers REGISTER_COND = s.registers REGISTER_COND :=
    fetch_register s s1 instr _ hf (by decide)
  obtain ⟨mN, mZ, mP⟩ := br_mask_selects instr
  -- the branch condition of the source is the selection of the current flag
  have hsel : (((instr >>> 9) &&& 0x7) &&& s.registers REGISTER_COND ≠ 0) ↔
      ((s.registers REGISTER_COND = FLAG_NEG_N ∧ instr.testBit 11 = true) ∨
        (s.registers REGISTER_COND = FLAG_ZRO_Z ∧ instr.testBit 10 = true) ∨
        (s.registers REGISTER_COND = FLAG_POS_P ∧ instr.testBit 9 = true)) := by
    have dNZ : FLAG_NEG_N ≠ FLAG_ZRO_Z := by decide
    have dNP : FLAG_NEG_N ≠ FLAG_POS_P := by decide
    have dZP : FLAG_ZRO_Z ≠ FLAG_POS_P := by decide
    rcases hc with h | h | h <;> rw [h]
    · rw [mN]
      simp [dNZ, dNP]
    · rw [mZ]
      simp [dNZ.symm, dZP]
    · rw [mP]
      simp [dNP.symm, dZP.symm]
  rw [step_of_fetch cs s s1 instr hf, execute_BR cs s1 instr hop]
  refine ⟨_, rfl, ?_⟩
  have htaken : (((instr >>> 9) &&& 0x7) &&& s.registers REGISTER_COND ≠ 0) →
      (case_OPCODE_BR s1 instr).registers REGISTER_PC = pc_relative p (signed_field 9 instr) := by
    intro h
    unfold case_OPCODE_BR
    simp only
    rw [hcond, if_pos h, h9]
    simp [set_register]
  have hnot : ¬ (((instr >>> 9) &&& 0x7) &&& s.registers REGISTER_COND ≠ 0) →
      (case_OPCODE_BR s1 instr).registers REGISTER_PC = (p + 1) % 65536 := by
    intro h
    unfold case_OPCODE_BR
    simp only
    rw [hcond, if_neg h, hpc]
  refine ⟨fun h => htaken (hsel.2 h), fun h => hnot (fun h1 => h (hsel.1 h1)), ?_, ?_, ?_⟩
  · intro h0
    apply hnot
    rw [h0]
    simp
  · intro h7
    apply htaken
    rw [h7]
    rcases hc with h | h | h <;> rw [h] <;> decide
  · intro r hr
    rw [← fetch_register s s1 instr r hf hr]
    unfold case_OPCODE_BR
    simp only
    split
    · exact Function.update_noteq hr _ _
    · rfl

/-- C6, an instance of `br_semantics`: `BRz #2` at `0x3000` with the
condition code Z jumps to `0x3003`. -/
theorem br_semantics_witness :
    ∃ s2, step true example_BRz = some s2 ∧ s2.registers REGISTER_PC = 0x3003 ∧
      ∀ r, r ≠ REGISTER_PC → s2.registers r = example_BRz.registers r := by
  obtain ⟨s2, h1, h2, _, _, _, h6⟩ :=
    br_semantics true example_BRz (fetch example_BRz).2 0x3000 (fetch example_BRz).1 rfl rfl
      (by decide) (by decide)
  exact ⟨s2, h1, (h2 (by decide)).trans (by decide), h6⟩

/-! ## C7: JSR -/

/-- C7. For every state with pre-fetch program counter `p` and every fetched
JSR-opcode instruction: R7 is first set to `(p + 1) mod 2^16`; then if bit 11 is
1 the program counter becomes `(p + 1 + off11) mod 2^16`, else it becomes the
content of the register named by bits 8..6 as it stands after the link was
written. So a register-mode JSR whose base register is R7 leaves the program
counter at `(p + 1) mod 2^16`, while for any other base register `b` it becomes
the pre-instruction `R[b]`. R0..R6 and the condition code are unchanged. -/
theorem jsr_semantics (cs : Bool) (s s1 : Machine) (p instr : Nat)
    (hp : s.registers REGISTER_PC = p) (hf : fetch s = (instr, s1))
    (hop : instr >>> 12 = OPCODE_JSR) :
    ∃ s2, step cs s = some s2 ∧
      s2.registers REGISTER_R7 = (p + 1) % 65536 ∧
      (instr.testBit 11 = true →
        s2.registers REGISTER_PC = pc_relative p (signed_field 11 instr)) ∧
      (instr.testBit 11 = false →
        s2.registers REGISTER_PC
          = Function.update s.registers REGISTER_R7 ((p + 1) % 65536) ((instr >>> 6) &&& 0x7)) ∧
      (instr.testBit 11 = false → (instr >>> 6) &&& 0x7 = REGISTER_R7 →
        s2.registers REGISTER_PC = (p + 1) % 65536) ∧
      (instr.testBit 11 = false → (instr >>> 6) &&& 0x7 ≠ REGISTER_R7 →
        s2.registers REGISTER_PC = s.registers ((instr >>> 6) &&& 0x7)) ∧
      (∀ r, r < 7 → s2.registers r = s.registers r) ∧
      s2.registers REGISTER_COND = s.registers REGISTER_COND := by
  have hpc := fetch_pc s s1 p instr hp hf
  have h11 := address_off11 s s1 p instr hp hf
  have hb : s1.registers ((instr >>> 6) &&& 0x7) = s.registers ((instr >>> 6) &&& 0x7) :=
    fetch_register s s1 instr _ hf (field_ne_PC _ _)
  have h7 : (set_register s1 REGISTER_R7 (s1.registers REGISTER_PC)).registers REGISTER_PC
      = s1.registers REGISTER_PC := by
    simp [set_register, REGISTER_PC, REGISTER_R7]
  rw [step_of_fetch cs s s1 instr hf, execute_JSR cs s1 instr hop]
  refine ⟨_, rfl, ?_⟩
  have hlink : (case_OPCODE_JSR s1 instr).registers REGISTER_R7 = (p + 1) % 65536 := by
    unfold case_OPCODE_JSR
    simp only
    split <;> simp [set_register, REGISTER_PC, REGISTER_R7] <;> exact hpc
  have hlong : instr.testBit 11 = true →
      (case_OPCODE_JSR s1 instr).registers REGISTER_PC
        = pc_relative p (signed_field 11 instr) := by
    intro h
    unfold case_OPCODE_JSR
    simp only
    rw [if_pos ((bit_11_flag instr).2 h), h7, h11]
    simp [set_register]
  have hreg : instr.testBit 11 = false →
      (case_OPCODE_JSR s1 instr).registers REGISTER_PC
        = Function.update s.registers REGISTER_R7 ((p + 1) % 65536) ((instr >>> 6) &&& 0x7) := by
    intro h
    have hn : ¬ ((instr >>> 11) &&& 1 ≠ 0) := by
      rw [bit_11_flag, h]
      decide
    unfold case_OPCODE_JSR
    simp only
    rw [if_neg hn]
    simp only [set_register, Function.update_same]
    rw [hpc, Function.update_apply, Function.update_apply, hb]
  refine ⟨hlink, hlong, hreg, ?_, ?_, ?_, ?_⟩
  · intro h hr
    rw [hreg h, hr, Function.update_same]
  · intro h hr
    rw [hreg h, Function.update_noteq hr]
  · intro r hr
    have h1 : r ≠ REGISTER_R7 := by unfold REGISTER_R7; omega
    have h2 : r ≠ REGISTER_PC := by unfold REGISTER_PC; omega
    rw [← fetch_register s s1 instr r hf h2]
    unfold case_OPCODE_JSR
    simp only
    split <;> simp [set_register, Function.update_noteq h1, Function.update_noteq h2]
  · rw [case_JSR_cond]
    exact fetch_register s s1 instr _ hf (by decide)

/-- C7, an instance of `jsr_semantics`: `JSRR R7` at `0x3000` with
`R7 = 0x4000` leaves both R7 and the program counter at `0x3001`. -/
theorem jsr_semantics_witness :
    ∃ s2, step true example_JSRR_R7 = some s2 ∧ s2.registers REGISTER_R7 = 0x3001 ∧
      s2.registers REGISTER_PC = 0x3001 := by
  obtain ⟨s2, h1, h2, _, _, h5, _⟩ :=
    jsr_semantics true example_JSRR_R7 (fetch example_JSRR_R7).2 0x3000
      (fetch example_JSRR_R7).1 rfl rfl (by decide)
  exact ⟨s2, h1, h2, h5 (by decide) (by decide)⟩

/-! ## C8: LDI -/

/-- C8. LDI chases exactly two levels of indirection: for every well-formed
state with pre-fetch program counter `p` in which none of `p`,
`a1 = (p + 1 + off9) mod 2^16` and `a2 = memory[a1]` is the keyboard status
address `0xFE00`, after an LDI step the destination register (bits 11..9) holds
`memory[a2] = memory[memory[a1]]`, the flags are set from it, memory is
unchanged and no other general-purpose register changes. -/
theorem ldi_two_levels (cs : Bool) (s s1 : Machine) (p instr a1 a2 : Nat) (hs : s.WF)
    (hp : s.registers REGISTER_PC = p) (hf : fetch s = (instr, s1))
    (hop : instr >>> 12 = OPCODE_LDI)
    (ha1 : a1 = pc_relative p (signed_field 9 instr)) (ha2 : a2 = s.memory a1)
    (h1 : p ≠ MEMORY_MAPPED_REGISTER_KEYBOARD_STATUS)
    (h2 : a1 ≠ MEMORY_MAPPED_REGISTER_KEYBOARD_STATUS)
    (h3 : a2 ≠ MEMORY_MAPPED_REGISTER_KEYBOARD_STATUS) :
    ∃ s2, step cs s = some s2 ∧
      s2.registers ((instr >>> 9) &&& 0x7) = s.memory (s.memory a1) ∧
      s2.registers REGISTER_COND = flag_of_sign (s.memory (s.memory a1)) ∧
      s2.memory = s.memory ∧
      (∀ r, r < 8 → r ≠ (instr >>> 9) &&& 0x7 → s2.registers r = s.registers r) := by
  have h9 := address_off9 s s1 p instr hp hf
  have hfe := fetch_of_ne s (by rw [hp]; exact h1)
  rw [hf, Prod.mk.injEq] at hfe
  obtain ⟨_, hs1⟩ := hfe
  have hmem : s1.memory = s.memory := by rw [hs1]; rfl
  have hcase : case_OPCODE_LDI s1 instr
      = update_flags (set_register s1 ((instr >>> 9) &&& 0x7) (s.memory (s.memory a1)))
          ((instr >>> 9) &&& 0x7) := by
    unfold case_OPCODE_LDI
    simp only
    rw [h9, ← ha1, memory_read_of_ne s1 a1 h2]
    simp only
    rw [hmem, ← ha2, memory_read_of_ne s1 a2 h3, hmem]
  rw [step_of_fetch cs s s1 instr hf, execute_LDI cs s1 instr hop, hcase]
  refine ⟨_, rfl, ?_⟩
  have hregs := flags_after_write s1 ((instr >>> 9) &&& 0x7) (s.memory (s.memory a1))
    (hs.memory_lt _)
  refine ⟨?_, ?_, ?_, ?_⟩
  · rw [hregs, Function.update_noteq (field_ne_COND _ _), Function.update_same]
  · rw [hregs, Function.update_same]
  · rw [update_flags_eq _ _ (by simpa [set_register] using hs.memory_lt _)]
    exact hmem
  · intro r hr hd
    have hc : r ≠ REGISTER_COND := by unfold REGISTER_COND; omega
    have hpc : r ≠ REGISTER_PC := by unfold REGISTER_PC; omega
    rw [hregs, Function.update_noteq hc, Function.update_noteq hd]
    exact fetch_register s s1 instr r hf hpc

/-- C8, an instance of `ldi_two_levels`: `LDI R3, #1` at `0x3000` with the
pointer `0x4000` at `0x3002` and `0x8001` at `0x4000` loads `0x8001` and sets
N. -/
theorem ldi_two_levels_witness :
    ∃ s2, step true example_LDI = some s2 ∧ s2.registers REGISTER_R3 = 0x8001 ∧
      s2.registers REGISTER_COND = FLAG_NEG_N ∧ s2.memory = example_LDI.memory := by
  obtain ⟨s2, h1, h2, h3, h4, _⟩ :=
    ldi_two_levels true example_LDI (fetch example_LDI).2 0x3000 (fetch example_LDI).1
      0x3002 0x4000 (machine_of_WF _ _ _ _ (by decide) (by decide) (by decide)) rfl rfl
      (by decide) (by decide) (by decide) (by decide) (by decide) (by decide)
  exact ⟨s2, h1, h2.trans (by decide), h3.trans (by decide), h4⟩

/-! ## C9: operand field positions -/

theorem uint16_and (a b : Nat) (ha : a < 65536) : uint16 (a &&& b) = a &&& b :=
  Nat.mod_eq_of_lt (Nat.lt_of_le_of_lt Nat.and_le_left ha)

theorem low_field_ne_PC (x : Nat) : x &&& 0x7 ≠ REGISTER_PC := by
  have : x &&& 0x7 ≤ 7 := Nat.and_le_right
  unfold REGISTER_PC
  omega

/-- C9 (as amended). In a register-mode ADD or AND (bit 5 = 0) the destination
is the register named by bits 11..9 and the two sources are the registers named
by bits 8..6 and bits 2..0: ADD stores `(R[bits 8..6] + R[bits 2..0]) mod 2^16`
and AND stores `R[bits 8..6] AND R[bits 2..0]` into `R[bits 11..9]`, for every
instruction word and register file, and no other general-purpose register is
written. -/
theorem register_operand_positions (cs : Bool) (s s1 : Machine) (instr : Nat) (hs : s.WF)
    (hf : fetch s = (instr, s1)) (hb : instr.testBit 5 = false) :
    (instr >>> 12 = OPCODE_ADD →
      ∃ s2, step cs s = some s2 ∧
        s2.registers ((instr >>> 9) &&& 0x7)
          = (s.registers ((instr >>> 6) &&& 0x7) + s.registers (instr &&& 0x7)) % 65536 ∧
        ∀ r, r < 8 → r ≠ (instr >>> 9) &&& 0x7 → s2.registers r = s.registers r) ∧
    (instr >>> 12 = OPCODE_AND →
      ∃ s2, step cs s = some s2 ∧
        s2.registers ((instr >>> 9) &&& 0x7)
          = s.registers ((instr >>> 6) &&& 0x7) &&& s.registers (instr &&& 0x7) ∧
        ∀ r, r < 8 → r ≠ (instr >>> 9) &&& 0x7 → s2.registers r = s.registers r) := by
  have hsr : s1.registers ((instr >>> 6) &&& 0x7) = s.registers ((instr >>> 6) &&& 0x7) :=
    fetch_register s s1 instr _ hf (field_ne_PC _ _)
  have ht : s1.registers (instr &&& 0x7) = s.registers (instr &&& 0x7) :=
    fetch_register s s1 instr _ hf (low_field_ne_PC _)
  have hi : ¬ ((instr >>> 5) &&& 0x1 ≠ 0) := by
    rw [bit_5_flag, hb]
    decide
  have hframe : ∀ v, v < 65536 → ∀ r, r < 8 → r ≠ (instr >>> 9) &&& 0x7 →
      (update_flags (set_register s1 ((instr >>> 9) &&& 0x7) v)
        ((instr >>> 9) &&& 0x7)).registers r = s.registers r := by
    intro v hv r hr hd
    have hc : r ≠ REGISTER_COND := by unfold REGISTER_COND; omega
    have hpc : r ≠ REGISTER_PC := by unfold REGISTER_PC; omega
    rw [flags_after_write s1 _ v hv, Function.update_noteq hc, Function.update_noteq hd]
    exact fetch_register s s1 instr r hf hpc
  have hdest : ∀ v, v < 65536 →
      (update_flags (set_register s1 ((instr >>> 9) &&& 0x7) v)
        ((instr >>> 9) &&& 0x7)).registers ((instr >>> 9) &&& 0x7) = v := by
    intro v hv
    rw [flags_after_write s1 _ v hv, Function.update_noteq (field_ne_COND _ _),
      Function.update_same]
  rw [step_of_fetch cs s s1 instr hf]
  constructor
  · intro hop
    rw [execute_ADD cs s1 instr hop]
    refine ⟨_, rfl, ?_⟩
    unfold case_OPCODE_ADD
    simp only [if_neg hi]
    refine ⟨?_, hframe _ (uint16_lt _)⟩
    rw [hdest _ (uint16_lt _), hsr, ht]
    rfl
  · intro hop
    rw [execute_AND cs s1 instr hop]
    refine ⟨_, rfl, ?_⟩
    unfold case_OPCODE_AND
    simp only [if_neg hi]
    refine ⟨?_, hframe _ (uint16_lt _)⟩
    rw [hdest _ (uint16_lt _), hsr, ht]
    exact uint16_and _ _ (hs.registers_lt _)

/-- C9, an instance of `register_operand_positions`: `AND R0, R1, R2` with
`R1 = 5` and `R2 = 7` stores 5 in R0 and leaves R2 at 7. -/
theorem register_operand_positions_witness :
    ∃ s2, step true example_AND_registers = some s2 ∧ s2.registers REGISTER_R0 = 5 ∧
      s2.registers REGISTER_R2 = 7 := by
  obtain ⟨s2, h1, h2, h3⟩ :=
    (register_operand_positions true example_AND_registers (fetch example_AND_registers).2
      (fetch example_AND_registers).1 (machine_of_WF _ _ _ _ (by decide) (by decide) (by decide))
      rfl (by decide)).2 (by decide)
  exact ⟨s2, h1, h2.trans (by decide), (h3 2 (by decide) (by decide)).trans (by decide)⟩

/-- C9 (as stated) fails: for `ADD R0, R1, R2` (word `0x1042`) with `R0 = 0`,
`R1 = 5`, `R2 = 7`, the register named by bits 2..0 (R2) still holds 7 after the
step, not `R[bits 11..9] + R[bits 8..6] = 0 + 5`; the sum `5 + 7 = 12` went to
the register named by bits 11..9 (R0). -/
theorem operand_positions_counterexample :
    (fetch example_ADD_registers).1 = 0x1042 ∧
    Nat.testBit 0x1042 5 = false ∧ 0x1042 >>> 12 = OPCODE_ADD ∧
    ∃ s2, step true example_ADD_registers = some s2 ∧
      s2.registers (0x1042 &&& 0x7) = 7 ∧
      (example_ADD_registers.registers ((0x1042 >>> 9) &&& 0x7)
        + example_ADD_registers.registers ((0x1042 >>> 6) &&& 0x7)) % 65536 = 5 ∧
      s2.registers (0x1042 &&& 0x7) ≠
        (example_ADD_registers.registers ((0x1042 >>> 9) &&& 0x7)
          + example_ADD_registers.registers ((0x1042 >>> 6) &&& 0x7)) % 65536 ∧
      s2.registers ((0x1042 >>> 9) &&& 0x7) = 12 :=
  ⟨by decide, by decide, by decide, _, rfl, by decide, by decide, by decide, by decide⟩

/-! ## C10: the memory port -/

theorem check_key_memory (s : Machine) : (check_key s).2.memory = s.memory := by
  unfold check_key
  split <;> rfl

theorem getchar_memory (s : Machine) : (getchar s).2.memory = s.memory := by
  unfold getchar
  split <;> rfl

/-- A read never changes a cell other than the two keyboard cells. -/
theorem memory_read_memory_of_ne (s : Machine) (a b : Nat)
    (h1 : b ≠ MEMORY_MAPPED_REGISTER_KEYBOARD_STATUS)
    (h2 : b ≠ MEMORY_MAPPED_REGISTER_KEYBOARD_DATA) :
    (memory_read s a).2.memory b = s.memory b := by
  rw [memory_read_eq]
  split
  · split
    · simp only [memory_write]
      rw [Function.update_noteq h2, getchar_memory]
      simp only
      rw [Function.update_noteq h1, check_key_memory]
    · simp only [memory_write]
      rw [Function.update_noteq h1, check_key_memory]
  · rfl

theorem apply_op_memory (s : Machine) (op : MemoryOp) (a : Nat)
    (h1 : a ≠ MEMORY_MAPPED_REGISTER_KEYBOARD_STATUS)
    (h2 : a ≠ MEMORY_MAPPED_REGISTER_KEYBOARD_DATA)
    (hop : ∀ v, op ≠ MemoryOp.write a v) : (apply_op s op).memory a = s.memory a := by
  cases op with
  | read b => exact memory_read_memory_of_ne s b a h1 h2
  | write b v =>
    have hb : a ≠ b := by
      intro h
      exact hop v (by rw [h])
    exact Function.update_noteq hb _ _

theorem apply_ops_memory (ops : List MemoryOp) (a : Nat)
    (h1 : a ≠ MEMORY_MAPPED_REGISTER_KEYBOARD_STATUS)
    (h2 : a ≠ MEMORY_MAPPED_REGISTER_KEYBOARD_DATA) :
    ∀ s : Machine, (∀ v, MemoryOp.write a v ∉ ops) → (apply_ops s ops).memory a = s.memory a := by
  induction ops with
  | nil => intro s _; rfl
  | cons op ops ih =>
    intro s hops
    show (apply_ops (apply_op s op) ops).memory a = s.memory a
    rw [ih (apply_op s op) (fun v hv => hops v (List.mem_cons_of_mem _ hv))]
    exact apply_op_memory s op a h1 h2 (fun v hv => hops v (by rw [hv]; exact List.mem_cons_self _ _))

/-- C10. For every state, every address `a` other than `0xFE00` and `0xFE02`
and every word `v`: `memory_read(a)` right after `memory_write(a, v)` returns
`v`, and it still does after any sequence of reads and of writes to other
addresses (it returns the last value written to `a`); `memory_read(a)` changes
nothing in the state (no memory cell, no input consumed). `memory_write(b, w)`
for any address `b`, `0xFE00` and `0xFE02` included, changes the cell at `b` only
and nothing else in the state. -/
theorem memory_read_write (s : Machine) (a v : Nat)
    (h1 : a ≠ MEMORY_MAPPED_REGISTER_KEYBOARD_STATUS)
    (h2 : a ≠ MEMORY_MAPPED_REGISTER_KEYBOARD_DATA) :
    memory_read (memory_write s a v) a = (v, memory_write s a v) ∧
    (∀ ops : List MemoryOp, (∀ w, MemoryOp.write a w ∉ ops) →
      (memory_read (apply_ops (memory_write s a v) ops) a).1 = v) ∧
    memory_read s a = (s.memory a, s) ∧
    (∀ b w : Nat,
      (memory_write s b w).memory b = w ∧
      (∀ c, c ≠ b → (memory_write s b w).memory c = s.memory c) ∧
      (memory_write s b w).registers = s.registers ∧
      (memory_write s b w).running = s.running ∧
      (memory_write s b w).stdin = s.stdin ∧
      (memory_write s b w).ready = s.ready ∧
      (memory_write s b w).stdout = s.stdout ∧
      (memory_write s b w).raw_mode = s.raw_mode ∧
      (memory_write s b w).exit_status = s.exit_status) := by
  have hw : (memory_write s a v).memory a = v := Function.update_same _ _ _
  refine ⟨?_, ?_, memory_read_of_ne s a h1, ?_⟩
  · rw [memory_read_of_ne _ a h1, hw]
  · intro ops hops
    rw [memory_read_of_ne _ a h1]
    simp only
    rw [apply_ops_memory ops a h1 h2 _ hops, hw]
  · intro b w
    exact ⟨Function.update_same _ _ _, fun c hc => Function.update_noteq hc _ _, rfl, rfl, rfl,
      rfl, rfl, rfl, rfl⟩

/-- C10, an instance of `memory_read_write`: after writing `0x1234` at
`0x4000`, then polling the keyboard (a read of `0xFE00` with a key ready) and
writing at `0x4001`, the read of `0x4000` returns `0x1234`. -/
theorem memory_read_write_witness :
    (memory_read (apply_ops (memory_write (machine_of [] [] [0x41] [true]) 0x4000 0x1234)
        [MemoryOp.read 0xFE00, MemoryOp.write 0x4001 7]) 0x4000).1 = 0x1234 :=
  (memory_read_write (machine_of [] [] [0x41] [true]) 0x4000 0x1234 (by decide)
    (by decide)).2.1 [MemoryOp.read 0xFE00, MemoryOp.write 0x4001 7] (by
      intro w hw
      simp at hw)

/-! ## C11: the keyboard status read -/

theorem check_key_ready (s : Machine) (polls : List Bool) (h : s.ready = true :: polls) :
    check_key s = (1, { s with ready := polls }) := by
  unfold check_key
  rw [h]
  rfl

theorem check_key_not_ready (s : Machine) (h : s.ready.head? ≠ some true) :
    (check_key s).1 = 0 ∧ (check_key s).2.memory = s.memory ∧
      (check_key s).2.stdin = s.stdin ∧ (check_key s).2.registers = s.registers ∧
      (check_key s).2.stdout = s.stdout := by
  unfold check_key
  split
  · exact ⟨rfl, rfl, rfl, rfl, rfl⟩
  · next r rest heq =>
    rw [heq] at h
    cases r
    · exact ⟨rfl, rfl, rfl, rfl, rfl⟩
    · exact absurd rfl h

theorem memory_write_same (s : Machine) (a v : Nat) : (memory_write s a v).memory a = v :=
  Function.update_same _ _ _

theorem memory_write_of_ne (s : Machine) (a v b : Nat) (h : b ≠ a) :
    (memory_write s a v).memory b = s.memory b :=
  Function.update_noteq h _ _

theorem memory_read_status_value (s : Machine) :
    (memory_read s MEMORY_MAPPED_REGISTER_KEYBOARD_STATUS).1 = 0 ∨
    (memory_read s MEMORY_MAPPED_REGISTER_KEYBOARD_STATUS).1 = 0x8000 := by
  rw [memory_read_eq, if_pos rfl]
  split
  · right
    simp only
    rw [memory_write_of_ne _ _ _ _ (by decide), getchar_memory, memory_write_same]
    rfl
  · left
    simp only
    rw [memory_write_same]

/-- C11 (as amended). For every state, `memory_read(0xFE00)` behaves as
follows, according to the answer of the poll of standard input and not to
whether a byte is pending. If the poll answers that input is ready,
`memory[0xFE00]` becomes `0x8000` and the call returns `0x8000`; when a byte `b`
is pending, exactly that byte is consumed and `memory[0xFE02]` becomes `b`
(zero-extended), and at end of file nothing is consumed and `memory[0xFE02]`
becomes `0xFFFF`. If the poll answers that no input is ready, `memory[0xFE00]`
becomes 0, the call returns 0, and `memory[0xFE02]` and the input stream are
unchanged, also when a byte is pending. One of the two answers is given in
every state; in both cases all other memory cells and all registers are
unchanged, and the value returned is `0x0000` or `0x8000` whatever
`memory[0xFE00]` held before. -/
theorem keyboard_status_read (s : Machine) :
    (∀ (b : Nat) (rest : List Nat) (polls : List Bool),
      s.ready = true :: polls → s.stdin = b :: rest → b < 256 →
        (memory_read s MEMORY_MAPPED_REGISTER_KEYBOARD_STATUS).1 = 0x8000 ∧
        (memory_read s MEMORY_MAPPED_REGISTER_KEYBOARD_STATUS).2.stdin = rest ∧
        (memory_read s MEMORY_MAPPED_REGISTER_KEYBOARD_STATUS).2.memory
          MEMORY_MAPPED_REGISTER_KEYBOARD_DATA = b ∧
        (memory_read s MEMORY_MAPPED_REGISTER_KEYBOARD_STATUS).2.memory
          MEMORY_MAPPED_REGISTER_KEYBOARD_STATUS = 0x8000) ∧
    (∀ polls : List Bool, s.ready = true :: polls → s.stdin = [] →
        (memory_read s MEMORY_MAPPED_REGISTER_KEYBOARD_STATUS).1 = 0x8000 ∧
        (memory_read s MEMORY_MAPPED_REGISTER_KEYBOARD_STATUS).2.stdin = [] ∧
        (memory_read s MEMORY_MAPPED_REGISTER_KEYBOARD_STATUS).2.memory
          MEMORY_MAPPED_REGISTER_KEYBOARD_DATA = 0xFFFF ∧
        (memory_read s MEMORY_MAPPED_REGISTER_KEYBOARD_STATUS).2.memory
          MEMORY_MAPPED_REGISTER_KEYBOARD_STATUS = 0x8000) ∧
    (s.ready.head? ≠ some true →
        (memory_read s MEMORY_MAPPED_REGISTER_KEYBOARD_STATUS).1 = 0 ∧
        (memory_read s MEMORY_MAPPED_REGISTER_KEYBOARD_STATUS).2.stdin = s.stdin ∧
        (memory_read s MEMORY_MAPPED_REGISTER_KEYBOARD_STATUS).2.memory
          MEMORY_MAPPED_REGISTER_KEYBOARD_DATA = s.memory MEMORY_MAPPED_REGISTER_KEYBOARD_DATA ∧
        (memory_read s MEMORY_MAPPED_REGISTER_KEYBOARD_STATUS).2.memory
          MEMORY_MAPPED_REGISTER_KEYBOARD_STATUS = 0) ∧
    (∀ a, a ≠ MEMORY_MAPPED_REGISTER_KEYBOARD_STATUS →
      a ≠ MEMORY_MAPPED_REGISTER_KEYBOARD_DATA →
        (memory_read s MEMORY_MAPPED_REGISTER_KEYBOARD_STATUS).2.memory a = s.memory a) ∧
    ((∃ polls : List Bool, s.ready = true :: polls) ∨ s.ready.head? ≠ some true) ∧
    (memory_read s MEMORY_MAPPED_REGISTER_KEYBOARD_STATUS).2.registers = s.registers ∧
    ((memory_read s MEMORY_MAPPED_REGISTER_KEYBOARD_STATUS).1 = 0 ∨
      (memory_read s MEMORY_MAPPED_REGISTER_KEYBOARD_STATUS).1 = 0x8000) := by
  have hcases : (∃ polls : List Bool, s.ready = true :: polls) ∨ s.ready.head? ≠ some true := by
    cases hr : s.ready with
    | nil => exact Or.inr (by simp)
    | cons r rest =>
      cases r
      · exact Or.inr (by simp)
      · exact Or.inl ⟨rest, rfl⟩
  refine ⟨?_, ?_, ?_, fun a h1 h2 => memory_read_memory_of_ne s _ a h1 h2, hcases,
    memory_read_registers s _, memory_read_status_value s⟩
  · intro b rest polls hr hi hb
    have hk := check_key_ready s polls hr
    rw [memory_read_eq, if_pos rfl, hk]
    simp only [ne_eq, one_ne_zero, not_false_eq_true, if_true]
    have hg : getchar (memory_write { s with ready := polls }
        MEMORY_MAPPED_REGISTER_KEYBOARD_STATUS (1 <<< 15))
        = ((b : Int), { memory_write { s with ready := polls }
            MEMORY_MAPPED_REGISTER_KEYBOARD_STATUS (1 <<< 15) with stdin := rest }) := by
      unfold getchar
      show (match s.stdin with
        | [] => _
        | b :: rest => _) = _
      rw [hi]
    rw [hg]
    simp only
    refine ⟨?_, rfl, ?_, ?_⟩
    · rw [memory_write_of_ne _ _ _ _ (by decide)]
      simp [memory_write]
    · rw [memory_write_same]
      unfold uint16_of_int
      omega
    · rw [memory_write_of_ne _ _ _ _ (by decide)]
      simp [memory_write]
  · intro polls hr hi
    have hk := check_key_ready s polls hr
    rw [memory_read_eq, if_pos rfl, hk]
    simp only [ne_eq, one_ne_zero, not_false_eq_true, if_true]
    have hg : getchar (memory_write { s with ready := polls }
        MEMORY_MAPPED_REGISTER_KEYBOARD_STATUS (1 <<< 15))
        = ((-1 : Int), memory_write { s with ready := polls }
            MEMORY_MAPPED_REGISTER_KEYBOARD_STATUS (1 <<< 15)) := by
      unfold getchar
      show (match s.stdin with
        | [] => _
        | b :: rest => _) = _
      rw [hi]
    rw [hg]
    simp only
    refine ⟨?_, hi, ?_, ?_⟩
    · rw [memory_write_of_ne _ _ _ _ (by decide)]
      simp [memory_write]
    · rw [memory_write_same]
      decide
    · rw [memory_write_of_ne _ _ _ _ (by decide)]
      simp [memory_write]
  · intro hn
    obtain ⟨h0, hm, hi, _, _⟩ := check_key_not_ready s hn
    rw [memory_read_eq, if_pos rfl, if_neg (by rw [h0]; decide)]
    simp only
    refine ⟨memory_write_same _ _ _, hi, ?_, memory_write_same _ _ _⟩
    rw [memory_write_of_ne _ _ _ _ (by decide), hm]

/-- C11, an instance of `keyboard_status_read`: with the poll positive and the
key `A` (0x41) pending, the read returns `0x8000`, consumes the byte and stores
it at `0xFE02`. -/
theorem keyboard_status_read_witness :
    (memory_read (machine_of [(0xFE00, 0x1234)] [] [0x41, 0x42] [true])
        MEMORY_MAPPED_REGISTER_KEYBOARD_STATUS).1 = 0x8000 ∧
    (memory_read (machine_of [(0xFE00, 0x1234)] [] [0x41, 0x42] [true])
        MEMORY_MAPPED_REGISTER_KEYBOARD_STATUS).2.stdin = [0x42] ∧
    (memory_read (machine_of [(0xFE00, 0x1234)] [] [0x41, 0x42] [true])
        MEMORY_MAPPED_REGISTER_KEYBOARD_STATUS).2.memory
          MEMORY_MAPPED_REGISTER_KEYBOARD_DATA = 0x41 ∧
    (memory_read (machine_of [(0xFE00, 0x1234)] [] [0x41, 0x42] [true])
        MEMORY_MAPPED_REGISTER_KEYBOARD_STATUS).2.memory
          MEMORY_MAPPED_REGISTER_KEYBOARD_STATUS = 0x8000 :=
  (keyboard_status_read (machine_of [(0xFE00, 0x1234)] [] [0x41, 0x42] [true])).1
    0x41 [0x42] [] rfl rfl (by decide)

/-- C11 (as stated) fails, in both of its cases. At end of file no byte is
available, yet with the poll positive the read returns `0x8000` and overwrites
`memory[0xFE02]`, which held `0x41`, with `0xFFFF`. With the byte `A` pending
and the poll negative, the read returns 0, sets `memory[0xFE00]` to 0 and
consumes nothing. -/
theorem keyboard_status_read_counterexample :
    (example_keyboard_eof.stdin = [] ∧
      example_keyboard_eof.memory MEMORY_MAPPED_REGISTER_KEYBOARD_DATA = 0x41 ∧
      (memory_read example_keyboard_eof MEMORY_MAPPED_REGISTER_KEYBOARD_STATUS).1 = 0x8000 ∧
      (memory_read example_keyboard_eof MEMORY_MAPPED_REGISTER_KEYBOARD_STATUS).2.memory
        MEMORY_MAPPED_REGISTER_KEYBOARD_DATA = 0xFFFF) ∧
    (example_keyboard_buffered.stdin = [0x41] ∧
      (memory_read example_keyboard_buffered MEMORY_MAPPED_REGISTER_KEYBOARD_STATUS).1 = 0 ∧
      (memory_read example_keyboard_buffered MEMORY_MAPPED_REGISTER_KEYBOARD_STATUS).2.memory
        MEMORY_MAPPED_REGISTER_KEYBOARD_STATUS = 0 ∧
      (memory_read example_keyboard_buffered MEMORY_MAPPED_REGISTER_KEYBOARD_STATUS).2.stdin
        = [0x41]) :=
  ⟨⟨by decide, by decide, by decide, by decide⟩, ⟨by decide, by decide, by decide, by decide⟩⟩

/-! ## The trap vectors one by one -/

theorem trap_GETC (cs : Bool) (s : Machine) (i : Nat) (h : i &&& 0xFF = TRAP_GETC) :
    case_OPCODE_TRAP cs s i
      = some (update_flags (set_register (getchar s).2 REGISTER_R0
          (uint16_of_int (getchar s).1)) REGISTER_R0) := by
  unfold case_OPCODE_TRAP
  simp only [h, if_true]

theorem trap_OUT (cs : Bool) (s : Machine) (i : Nat) (h : i &&& 0xFF = TRAP_OUT) :
    case_OPCODE_TRAP cs s i
      = some (fflush (putc s (char_of_int cs (s.registers REGISTER_R0)))) := by
  unfold case_OPCODE_TRAP
  simp [h, TRAP_GETC, TRAP_OUT]

theorem trap_IN (cs : Bool) (s : Machine) (i : Nat) (h : i &&& 0xFF = TRAP_IN) :
    case_OPCODE_TRAP cs s i
      = some (update_flags (set_register
          (fflush (putc (getchar (print_string s "Enter a character: ")).2
            (char_of_int cs (getchar (print_string s "Enter a character: ")).1)))
          REGISTER_R0
          (uint16_of_int (char_of_int cs (getchar (print_string s "Enter a character: ")).1)))
          REGISTER_R0) := by
  unfold case_OPCODE_TRAP
  simp [h, TRAP_GETC, TRAP_OUT, TRAP_IN]

theorem trap_PUTS (cs : Bool) (s : Machine) (i : Nat) (h : i &&& 0xFF = TRAP_PUTS) :
    case_OPCODE_TRAP cs s i
      = (puts_loop cs s (MEMORY_MAX + 1) (s.registers REGISTER_R0)).map fflush := by
  unfold case_OPCODE_TRAP
  simp [h, TRAP_GETC, TRAP_OUT, TRAP_IN, TRAP_PUTS]

theorem trap_PUTSP (cs : Bool) (s : Machine) (i : Nat) (h : i &&& 0xFF = TRAP_PUTSP) :
    case_OPCODE_TRAP cs s i
      = (putsp_loop cs s (MEMORY_MAX + 1) (s.registers REGISTER_R0)).map fflush := by
  unfold case_OPCODE_TRAP
  simp [h, TRAP_GETC, TRAP_OUT, TRAP_IN, TRAP_PUTS, TRAP_PUTSP]

theorem trap_HALT (cs : Bool) (s : Machine) (i : Nat) (h : i &&& 0xFF = TRAP_HALT) :
    case_OPCODE_TRAP cs s i
      = some { fflush (puts s "Machine halted!") with running := false } := by
  unfold case_OPCODE_TRAP
  simp [h, TRAP_GETC, TRAP_OUT, TRAP_IN, TRAP_PUTS, TRAP_PUTSP, TRAP_HALT]

theorem trap_other (cs : Bool) (s : Machine) (i : Nat)
    (h : i &&& 0xFF < 0x20 ∨ 0x25 < i &&& 0xFF) : case_OPCODE_TRAP cs s i = some s := by
  unfold case_OPCODE_TRAP
  have h0 : i &&& 0xFF ≠ TRAP_GETC := by unfold TRAP_GETC; omega
  have h1 : i &&& 0xFF ≠ TRAP_OUT := by unfold TRAP_OUT; omega
  have h2 : i &&& 0xFF ≠ TRAP_PUTS := by unfold TRAP_PUTS; omega
  have h3 : i &&& 0xFF ≠ TRAP_IN := by unfold TRAP_IN; omega
  have h4 : i &&& 0xFF ≠ TRAP_PUTSP := by unfold TRAP_PUTSP; omega
  have h5 : i &&& 0xFF ≠ TRAP_HALT := by unfold TRAP_HALT; omega
  simp only [if_neg h0, if_neg h1, if_neg h2, if_neg h3, if_neg h4, if_neg h5]

theorem trap_vector_cases (i : Nat) :
    i &&& 0xFF = TRAP_GETC ∨ i &&& 0xFF = TRAP_OUT ∨ i &&& 0xFF = TRAP_PUTS ∨
    i &&& 0xFF = TRAP_IN ∨ i &&& 0xFF = TRAP_PUTSP ∨ i &&& 0xFF = TRAP_HALT ∨
    (i &&& 0xFF < 0x20 ∨ 0x25 < i &&& 0xFF) := by
  unfold TRAP_GETC TRAP_OUT TRAP_PUTS TRAP_IN TRAP_PUTSP TRAP_HALT
  omega

/-! ## What an instruction does to `running` and to the exit status -/

theorem update_flags_frame (s : Machine) (r : Nat) :
    ∃ f, update_flags s r = set_register s REGISTER_COND f := by
  unfold update_flags
  split
  · exact ⟨_, rfl⟩
  · split
    · exact ⟨_, rfl⟩
    · exact ⟨_, rfl⟩

theorem check_key_control (s : Machine) :
    (check_key s).2.running = s.running ∧ (check_key s).2.exit_status = s.exit_status ∧
      (check_key s).2.raw_mode = s.raw_mode := by
  unfold check_key
  split <;> exact ⟨rfl, rfl, rfl⟩

theorem getchar_control (s : Machine) :
    (getchar s).2.running = s.running ∧ (getchar s).2.exit_status = s.exit_status ∧
      (getchar s).2.raw_mode = s.raw_mode := by
  unfold getchar
  split <;> exact ⟨rfl, rfl, rfl⟩

theorem memory_read_control (s : Machine) (a : Nat) :
    (memory_read s a).2.running = s.running ∧
      (memory_read s a).2.exit_status = s.exit_status ∧
      (memory_read s a).2.raw_mode = s.raw_mode := by
  rw [memory_read_eq]
  split
  · split
    · simp only [memory_write]
      obtain ⟨g1, g2, g3⟩ := getchar_control (memory_write (check_key s).2
        MEMORY_MAPPED_REGISTER_KEYBOARD_STATUS (1 <<< 15))
      obtain ⟨c1, c2, c3⟩ := check_key_control s
      exact ⟨g1.trans c1, g2.trans c2, g3.trans c3⟩
    · exact check_key_control s
  · exact ⟨rfl, rfl, rfl⟩

theorem update_flags_control (s : Machine) (r : Nat) :
    (update_flags s r).running = s.running ∧ (update_flags s r).exit_status = s.exit_status ∧
      (update_flags s r).raw_mode = s.raw_mode := by
  obtain ⟨f, hf⟩ := update_flags_frame s r
  rw [hf]
  exact ⟨rfl, rfl, rfl⟩

/-- Every instruction other than the traps and the invalid opcodes leaves
`running`, the exit status and the terminal mode alone. -/
theorem execute_control (cs : Bool) (s : Machine) (i : Nat) (s1 : Machine)
    (hop : i >>> 12 ∈ [OPCODE_ADD, OPCODE_AND, OPCODE_NOT, OPCODE_BR, OPCODE_JMP,
      OPCODE_JSR, OPCODE_LD, OPCODE_LDI, OPCODE_LDR, OPCODE_LEA, OPCODE_ST, OPCODE_STI,
      OPCODE_STR])
    (h : execute cs s i = some s1) :
    s1.running = s.running ∧ s1.exit_status = s.exit_status ∧ s1.raw_mode = s.raw_mode := by
  simp only [List.mem_cons, List.mem_singleton, List.not_mem_nil, or_false] at hop
  rcases hop with h1 | h1 | h1 | h1 | h1 | h1 | h1 | h1 | h1 | h1 | h1 | h1 | h1
  · rw [execute_ADD cs s i h1, Option.some.injEq] at h
    subst h
    unfold case_OPCODE_ADD
    simp only
    split <;> exact update_flags_control _ _
  · rw [execute_AND cs s i h1, Option.some.injEq] at h
    subst h
    unfold case_OPCODE_AND
    simp only
    split <;> exact update_flags_control _ _
  · rw [execute_NOT cs s i h1, Option.some.injEq] at h
    subst h
    exact update_flags_control _ _
  · rw [execute_BR cs s i h1, Option.some.injEq] at h
    subst h
    unfold case_OPCODE_BR
    simp only
    split <;> exact ⟨rfl, rfl, rfl⟩
  · rw [execute_JMP cs s i h1, Option.some.injEq] at h
    subst h
    exact ⟨rfl, rfl, rfl⟩
  · rw [execute_JSR cs s i h1, Option.some.injEq] at h
    subst h
    unfold case_OPCODE_JSR
    simp only
    split <;> exact ⟨rfl, rfl, rfl⟩
  · rw [execute_LD cs s i h1, Option.some.injEq] at h
    subst h
    obtain ⟨u1, u2, u3⟩ := update_flags_control (set_register (memory_read s
      (uint16 (s.registers REGISTER_PC + sign_extend (i &&& 0x1FF) 9))).2 ((i >>> 9) &&& 0x7)
      (memory_read s (uint16 (s.registers REGISTER_PC + sign_extend (i &&& 0x1FF) 9))).1)
      ((i >>> 9) &&& 0x7)
    obtain ⟨m1, m2, m3⟩ := memory_read_control s
      (uint16 (s.registers REGISTER_PC + sign_extend (i &&& 0x1FF) 9))
    exact ⟨u1.trans m1, u2.trans m2, u3.trans m3⟩
  · rw [execute_LDI cs s i h1, Option.some.injEq] at h
    subst h
    obtain ⟨m1, m2, m3⟩ := memory_read_control s
      (uint16 (s.registers REGISTER_PC + sign_extend (i &&& 0x1FF) 9))
    obtain ⟨n1, n2, n3⟩ := memory_read_control (memory_read s
      (uint16 (s.registers REGISTER_PC + sign_extend (i &&& 0x1FF) 9))).2 (memory_read s
      (uint16 (s.registers REGISTER_PC + sign_extend (i &&& 0x1FF) 9))).1
    obtain ⟨u1, u2, u3⟩ := update_flags_control (set_register (memory_read (memory_read s
      (uint16 (s.registers REGISTER_PC + sign_extend (i &&& 0x1FF) 9))).2 (memory_read s
      (uint16 (s.registers REGISTER_PC + sign_extend (i &&& 0x1FF) 9))).1).2
      ((i >>> 9) &&& 0x7) (memory_read (memory_read s
      (uint16 (s.registers REGISTER_PC + sign_extend (i &&& 0x1FF) 9))).2 (memory_read s
      (uint16 (s.registers REGISTER_PC + sign_extend (i &&& 0x1FF) 9))).1).1)
      ((i >>> 9) &&& 0x7)
    exact ⟨u1.trans (n1.trans m1), u2.trans (n2.trans m2), u3.trans (n3.trans m3)⟩
  · rw [execute_LDR cs s i h1, Option.some.injEq] at h
    subst h
    obtain ⟨m1, m2, m3⟩ := memory_read_control s
      (uint16 (s.registers ((i >>> 6) &&& 0x7) + sign_extend (i &&& 0x3F) 6))
    obtain ⟨u1, u2, u3⟩ := update_flags_control (set_register (memory_read s
      (uint16 (s.registers ((i >>> 6) &&& 0x7) + sign_extend (i &&& 0x3F) 6))).2
      ((i >>> 9) &&& 0x7)
      (memory_read s (uint16 (s.registers ((i >>> 6) &&& 0x7) + sign_extend (i &&& 0x3F) 6))).1)
      ((i >>> 9) &&& 0x7)
    exact ⟨u1.trans m1, u2.trans m2, u3.trans m3⟩
  · rw [execute_LEA cs s i h1, Option.some.injEq] at h
    subst h
    exact update_flags_control _ _
  · rw [execute_ST cs s i h1, Option.some.injEq] at h
    subst h
    exact ⟨rfl, rfl, rfl⟩
  · rw [execute_STI cs s i h1, Option.some.injEq] at h
    subst h
    exact memory_read_control s _
  · rw [execute_STR cs s i h1, Option.some.injEq] at h
    subst h
    exact ⟨rfl, rfl, rfl⟩

/-! ## What a trap leaves alone -/

theorem update_flags_memory (s : Machine) (r : Nat) : (update_flags s r).memory = s.memory := by
  obtain ⟨f, hf⟩ := update_flags_frame s r
  rw [hf]
  rfl

theorem update_flags_other (s : Machine) (r d : Nat) (hd : d ≠ REGISTER_COND) :
    (update_flags s r).registers d = s.registers d :=
  update_flags_register s r d hd

/-- The effect of a trap on everything but standard input and output. -/
theorem trap_effect (cs : Bool) (s : Machine) (i : Nat) (s2 : Machine)
    (h : case_OPCODE_TRAP cs s i = some s2) :
    s2.memory = s.memory ∧ s2.exit_status = s.exit_status ∧ s2.raw_mode = s.raw_mode ∧
    (∀ r, r ≠ REGISTER_R0 → r ≠ REGISTER_COND → s2.registers r = s.registers r) ∧
    (i &&& 0xFF ≠ TRAP_GETC → i &&& 0xFF ≠ TRAP_IN → s2.registers = s.registers) ∧
    (i &&& 0xFF ≠ TRAP_HALT → s2.running = s.running) ∧
    (i &&& 0xFF = TRAP_HALT → s2.running = false) := by
  rcases trap_vector_cases i with hv | hv | hv | hv | hv | hv | hv
  · rw [trap_GETC cs s i hv, Option.some.injEq] at h
    subst h
    obtain ⟨c1, c2, c3⟩ := update_flags_control (set_register (getchar s).2 REGISTER_R0
      (uint16_of_int (getchar s).1)) REGISTER_R0
    obtain ⟨g1, g2, g3⟩ := getchar_control s
    refine ⟨?_, c2.trans g2, c3.trans g3, ?_, fun h0 => absurd hv h0, fun _ => c1.trans g1,
      fun h5 => absurd (hv.symm.trans h5) (by decide)⟩
    · rw [update_flags_memory]
      exact getchar_memory s
    · intro r h0 hc
      rw [update_flags_other _ _ _ hc]
      show Function.update _ _ _ r = _
      rw [Function.update_noteq h0, getchar_registers]
  · rw [trap_OUT cs s i hv, Option.some.injEq] at h
    subst h
    exact ⟨rfl, rfl, rfl, fun _ _ _ => rfl, fun _ _ => rfl, fun _ => rfl,
      fun h5 => absurd (hv.symm.trans h5) (by decide)⟩
  · rw [trap_PUTS cs s i hv, Option.map_eq_some'] at h
    obtain ⟨s3, h3, h4⟩ := h
    obtain ⟨out, hout⟩ := puts_loop_frame _ _ _ _ _ h3
    subst h4
    subst hout
    exact ⟨rfl, rfl, rfl, fun _ _ _ => rfl, fun _ _ => rfl, fun _ => rfl,
      fun h5 => absurd (hv.symm.trans h5) (by decide)⟩
  · rw [trap_IN cs s i hv, Option.some.injEq] at h
    subst h
    obtain ⟨c1, c2, c3⟩ := update_flags_control (set_register
      (fflush (putc (getchar (print_string s "Enter a character: ")).2
        (char_of_int cs (getchar (print_string s "Enter a character: ")).1)))
      REGISTER_R0
      (uint16_of_int (char_of_int cs (getchar (print_string s "Enter a character: ")).1)))
      REGISTER_R0
    obtain ⟨g1, g2, g3⟩ := getchar_control (print_string s "Enter a character: ")
    refine ⟨?_, c2.trans g2, c3.trans g3, ?_, fun _ h3 => absurd hv h3, fun _ => c1.trans g1,
      fun h5 => absurd (hv.symm.trans h5) (by decide)⟩
    · rw [update_flags_memory]
      exact getchar_memory (print_string s "Enter a character: ")
    · intro r h0 hc
      rw [update_flags_other _ _ _ hc]
      show Function.update _ _ _ r = _
      rw [Function.update_noteq h0]
      exact congrFun (getchar_registers (print_string s "Enter a character: ")) r
  · rw [trap_PUTSP cs s i hv, Option.map_eq_some'] at h
    obtain ⟨s3, h3, h4⟩ := h
    obtain ⟨out, hout⟩ := putsp_loop_frame _ _ _ _ _ h3
    subst h4
    subst hout
    exact ⟨rfl, rfl, rfl, fun _ _ _ => rfl, fun _ _ => rfl, fun _ => rfl,
      fun h5 => absurd (hv.symm.trans h5) (by decide)⟩
  · rw [trap_HALT cs s i hv, Option.some.injEq] at h
    subst h
    exact ⟨rfl, rfl, rfl, fun _ _ _ => rfl, fun _ _ => rfl, fun h5 => absurd hv h5,
      fun _ => rfl⟩
  · rw [trap_other cs s i hv, Option.some.injEq] at h
    subst h
    refine ⟨rfl, rfl, rfl, fun _ _ _ => rfl, fun _ _ => rfl, fun _ => rfl, ?_⟩
    intro h5
    rw [h5] at hv
    exact absurd hv (by decide)

theorem trap_defined (cs : Bool) (s : Machine) (i : Nat)
    (h : i &&& 0xFF ≠ TRAP_PUTS ∧ i &&& 0xFF ≠ TRAP_PUTSP) :
    ∃ s2, case_OPCODE_TRAP cs s i = some s2 := by
  rcases trap_vector_cases i with hv | hv | hv | hv | hv | hv | hv
  · exact ⟨_, trap_GETC cs s i hv⟩
  · exact ⟨_, trap_OUT cs s i hv⟩
  · exact absurd hv h.1
  · exact ⟨_, trap_IN cs s i hv⟩
  · exact absurd hv h.2
  · exact ⟨_, trap_HALT cs s i hv⟩
  · exact ⟨_, trap_other cs s i hv⟩

theorem execute_defined (cs : Bool) (s : Machine) (i : Nat) (h : i >>> 12 ≠ OPCODE_TRAP) :
    ∃ s1, execute cs s i = some s1 := by
  by_cases hmem : i >>> 12 ∈ [OPCODE_ADD, OPCODE_AND, OPCODE_NOT, OPCODE_BR, OPCODE_JMP,
      OPCODE_JSR, OPCODE_LD, OPCODE_LDI, OPCODE_LDR, OPCODE_LEA, OPCODE_ST, OPCODE_STI,
      OPCODE_STR]
  · simp only [List.mem_cons, List.mem_singleton, List.not_mem_nil, or_false] at hmem
    rcases hmem with h1 | h1 | h1 | h1 | h1 | h1 | h1 | h1 | h1 | h1 | h1 | h1 | h1
    · exact ⟨_, execute_ADD cs s i h1⟩
    · exact ⟨_, execute_AND cs s i h1⟩
    · exact ⟨_, execute_NOT cs s i h1⟩
    · exact ⟨_, execute_BR cs s i h1⟩
    · exact ⟨_, execute_JMP cs s i h1⟩
    · exact ⟨_, execute_JSR cs s i h1⟩
    · exact ⟨_, execute_LD cs s i h1⟩
    · exact ⟨_, execute_LDI cs s i h1⟩
    · exact ⟨_, execute_LDR cs s i h1⟩
    · exact ⟨_, execute_LEA cs s i h1⟩
    · exact ⟨_, execute_ST cs s i h1⟩
    · exact ⟨_, execute_STI cs s i h1⟩
    · exact ⟨_, execute_STR cs s i h1⟩
  · refine ⟨_, execute_default cs s i ?_⟩
    simp only [List.mem_cons, List.mem_singleton, List.not_mem_nil, or_false, not_or] at hmem ⊢
    obtain ⟨h1, h2, h3, h4, h5, h6, h7, h8, h9, h10, h11, h12, h13⟩ := hmem
    exact ⟨h1, h2, h3, h4, h5, h6, h7, h8, h9, h10, h11, h12, h13, h⟩

theorem fetch_control (s s1 : Machine) (instr : Nat) (hf : fetch s = (instr, s1)) :
    s1.running = s.running ∧ s1.exit_status = s.exit_status ∧ s1.raw_mode = s.raw_mode := by
  have h := memory_read_control (set_register s REGISTER_PC (uint16 (s.registers REGISTER_PC + 1)))
    (s.registers REGISTER_PC)
  have hf' : fetch s = memory_read (set_register s REGISTER_PC
    (uint16 (s.registers REGISTER_PC + 1))) (s.registers REGISTER_PC) := rfl
  rw [← hf', hf] at h
  exact h

theorem opcode_lt (instr : Nat) (h : instr < 65536) : instr >>> 12 < 16 := by
  rw [Nat.shiftRight_eq_div_pow]
  omega

/-! ## C14: the outcome of one step -/

/-- C14. For every well-formed state in which the loop is running, with `instr`
the fetched instruction: the step halts the machine (it clears `running`, so
that `main` leaves the loop and returns 0) if and only if `instr` is a TRAP
whose low 8 bits are `0x25`; it ends the run with the nonzero status
`EXIT_FAILURE` if and only if the opcode of `instr` is RTI or RES; for every
other instruction word the loop goes on, provided the step has defined
behaviour, which it has for every instruction other than TRAP PUTS and
TRAP PUTSP. -/
theorem step_outcome (cs : Bool) (s s1 : Machine) (instr : Nat) (hs : s.WF)
    (hf : fetch s = (instr, s1)) (hrun : s.running = true) (hexit : s.exit_status = none) :
    ((instr >>> 12 = OPCODE_TRAP ∧ instr &&& 0xFF = TRAP_HALT) →
      ∃ s2, step cs s = some s2 ∧ s2.running = false ∧ s2.exit_status = none ∧
        (after_iteration s2).exit_status = some 0) ∧
    ((instr >>> 12 = OPCODE_RTI ∨ instr >>> 12 = OPCODE_RES) →
      ∃ s2, step cs s = some s2 ∧ s2.running = true ∧ s2.exit_status = some EXIT_FAILURE ∧
        EXIT_FAILURE ≠ 0 ∧ after_iteration s2 = s2) ∧
    (¬ (instr >>> 12 = OPCODE_TRAP ∧ instr &&& 0xFF = TRAP_HALT) →
      ¬ (instr >>> 12 = OPCODE_RTI ∨ instr >>> 12 = OPCODE_RES) →
      ∀ s2, step cs s = some s2 →
        s2.running = true ∧ s2.exit_status = none ∧ in_loop s2 = true ∧
          after_iteration s2 = s2) ∧
    (¬ (instr >>> 12 = OPCODE_TRAP ∧
        (instr &&& 0xFF = TRAP_PUTS ∨ instr &&& 0xFF = TRAP_PUTSP)) →
      ∃ s2, step cs s = some s2) := by
  obtain ⟨f1, f2, _⟩ := fetch_control s s1 instr hf
  have hlt : instr < 65536 := by
    have := fetch_lt s hs
    rwa [hf] at this
  have ho := opcode_lt instr hlt
  rw [step_of_fetch cs s s1 instr hf]
  refine ⟨?_, ?_, ?_, ?_⟩
  · rintro ⟨hop, hv⟩
    rw [execute_TRAP cs s1 instr hop, trap_HALT cs s1 instr hv]
    refine ⟨_, rfl, rfl, ?_, ?_⟩
    · exact f2.trans hexit
    · have he : s1.exit_status = none := f2.trans hexit
      simp [after_iteration, main_return, restore_input_buffering, fflush, puts, putc,
        print_string, he, EXIT_SUCCESS]
  · intro hop
    rw [execute_invalid cs s1 instr hop]
    refine ⟨_, rfl, ?_, rfl, by decide, ?_⟩
    · exact f1.trans hrun
    · simp [after_iteration, case_invalid]
  · intro hh hi s2 h2
    have hres : s2.running = true ∧ s2.exit_status = none := by
      by_cases ht : instr >>> 12 = OPCODE_TRAP
      · rw [execute_TRAP cs s1 instr ht] at h2
        obtain ⟨_, e2, _, _, _, e6, _⟩ := trap_effect cs s1 instr s2 h2
        exact ⟨(e6 (fun hv => hh ⟨ht, hv⟩)).trans (f1.trans hrun), e2.trans (f2.trans hexit)⟩
      · have hmem : instr >>> 12 ∈ [OPCODE_ADD, OPCODE_AND, OPCODE_NOT, OPCODE_BR, OPCODE_JMP,
            OPCODE_JSR, OPCODE_LD, OPCODE_LDI, OPCODE_LDR, OPCODE_LEA, OPCODE_ST, OPCODE_STI,
            OPCODE_STR] := by
          simp only [List.mem_cons, List.mem_singleton, List.not_mem_nil, or_false]
          simp only [not_or] at hi
          obtain ⟨hi1, hi2⟩ := hi
          unfold OPCODE_TRAP at ht
          unfold OPCODE_RTI at hi1
          unfold OPCODE_RES at hi2
          unfold OPCODE_ADD OPCODE_AND OPCODE_NOT OPCODE_BR OPCODE_JMP OPCODE_JSR OPCODE_LD
            OPCODE_LDI OPCODE_LDR OPCODE_LEA OPCODE_ST OPCODE_STI OPCODE_STR
          omega
        obtain ⟨e1, e2, _⟩ := execute_control cs s1 instr s2 hmem h2
        exact ⟨e1.trans (f1.trans hrun), e2.trans (f2.trans hexit)⟩
    obtain ⟨r1, r2⟩ := hres
    refine ⟨r1, r2, ?_, ?_⟩
    · simp [in_loop, r1, r2]
    · simp [after_iteration, r1, r2]
  · intro hp
    by_cases ht : instr >>> 12 = OPCODE_TRAP
    · rw [execute_TRAP cs s1 instr ht]
      apply trap_defined
      exact ⟨fun h => hp ⟨ht, Or.inl h⟩, fun h => hp ⟨ht, Or.inr h⟩⟩
    · exact execute_defined cs s1 instr ht

/-- C14, an instance of `step_outcome`: the step of `TRAP x25` clears
`running`, after which `main` returns 0. -/
theorem step_outcome_witness :
    ∃ s2, step true example_HALT = some s2 ∧ s2.running = false ∧ s2.exit_status = none ∧
      (after_iteration s2).exit_status = some 0 :=
  (step_outcome true example_HALT (fetch example_HALT).2 (fetch example_HALT).1
    (machine_of_WF _ _ _ _ (by decide) (by decide) (by decide)) rfl rfl rfl).1
    ⟨by decide, by decide⟩

/-! ## C15: what a TRAP leaves alone -/

theorem fetch_state_of_ne (s s1 : Machine) (p instr : Nat) (hp : s.registers REGISTER_PC = p)
    (hf : fetch s = (instr, s1)) (hne : p ≠ MEMORY_MAPPED_REGISTER_KEYBOARD_STATUS) :
    instr = s.memory p ∧ s1 = set_register s REGISTER_PC ((p + 1) % 65536) := by
  have hfe := fetch_of_ne s (by rw [hp]; exact hne)
  rw [hf, hp, Prod.mk.injEq] at hfe
  exact hfe

/-- C15. For every state with pre-fetch program counter `p` other than `0xFE00`
and every fetched TRAP instruction whose step has defined behaviour: R1..R7 are
not touched, memory is unchanged, and the program counter after the step is
`(p + 1) mod 2^16`; R0 and the condition code can change only for the vectors
`0x20` (GETC) and `0x23` (IN). For every vector outside `0x20..0x25` the step is
defined and is a silent no-op: all registers other than the program counter,
all of memory, the halt flag, standard output and standard input are
unchanged. -/
theorem trap_frame (cs : Bool) (s s1 : Machine) (p instr : Nat)
    (hp : s.registers REGISTER_PC = p) (hf : fetch s = (instr, s1))
    (hop : instr >>> 12 = OPCODE_TRAP) (hne : p ≠ MEMORY_MAPPED_REGISTER_KEYBOARD_STATUS) :
    (∀ s2, step cs s = some s2 →
      (∀ r, 1 ≤ r → r ≤ 7 → s2.registers r = s.registers r) ∧
      s2.registers REGISTER_PC = (p + 1) % 65536 ∧
      s2.memory = s.memory ∧
      (instr &&& 0xFF ≠ TRAP_GETC → instr &&& 0xFF ≠ TRAP_IN →
        s2.registers REGISTER_R0 = s.registers REGISTER_R0 ∧
        s2.registers REGISTER_COND = s.registers REGISTER_COND)) ∧
    ((instr &&& 0xFF < 0x20 ∨ 0x25 < instr &&& 0xFF) →
      ∃ s2, step cs s = some s2 ∧
        (∀ r, r ≠ REGISTER_PC → s2.registers r = s.registers r) ∧
        s2.registers REGISTER_PC = (p + 1) % 65536 ∧
        s2.memory = s.memory ∧ s2.running = s.running ∧ s2.stdout = s.stdout ∧
        s2.stdin = s.stdin ∧ s2.ready = s.ready ∧ s2.exit_status = s.exit_status) := by
  obtain ⟨_, hs1⟩ := fetch_state_of_ne s s1 p instr hp hf hne
  rw [step_of_fetch cs s s1 instr hf, execute_TRAP cs s1 instr hop]
  have hpc : s1.registers REGISTER_PC = (p + 1) % 65536 := fetch_pc s s1 p instr hp hf
  have hmem : s1.memory = s.memory := by rw [hs1]; rfl
  constructor
  · intro s2 h2
    obtain ⟨e1, _, _, e4, e5, _, _⟩ := trap_effect cs s1 instr s2 h2
    refine ⟨?_, ?_, e1.trans hmem, ?_⟩
    · intro r hr1 hr7
      have h0 : r ≠ REGISTER_R0 := by unfold REGISTER_R0; omega
      have hc : r ≠ REGISTER_COND := by unfold REGISTER_COND; omega
      have hp' : r ≠ REGISTER_PC := by unfold REGISTER_PC; omega
      rw [e4 r h0 hc]
      exact fetch_register s s1 instr r hf hp'
    · rw [e4 REGISTER_PC (by decide) (by decide)]
      exact hpc
    · intro hg hi
      rw [e5 hg hi]
      exact ⟨fetch_register s s1 instr _ hf (by decide),
        fetch_register s s1 instr _ hf (by decide)⟩
  · intro hv
    rw [trap_other cs s1 instr hv]
    refine ⟨_, rfl, fun r hr => fetch_register s s1 instr r hf hr, hpc, hmem, ?_⟩
    rw [hs1]
    exact ⟨rfl, rfl, rfl, rfl, rfl⟩

/-- C15, an instance of `trap_frame`: `TRAP x00` at `0x3000` is defined, moves
the program counter to `0x3001` and leaves R0, R7, the condition code, standard
input and standard output as they were. -/
theorem trap_frame_witness :
    ∃ s2, step true example_TRAP_unknown = some s2 ∧
      s2.registers REGISTER_R0 = 0x41 ∧ s2.registers REGISTER_R7 = 0x1234 ∧
      s2.registers REGISTER_COND = FLAG_POS_P ∧ s2.registers REGISTER_PC = 0x3001 ∧
      s2.stdout = [] ∧ s2.stdin = [0x41] := by
  obtain ⟨s2, h1, h2, h3, _, _, h6, h7, _⟩ :=
    (trap_frame true example_TRAP_unknown (fetch example_TRAP_unknown).2 0x3000
      (fetch example_TRAP_unknown).1 rfl rfl (by decide) (by decide)).2 (by decide)
  exact ⟨s2, h1, (h2 REGISTER_R0 (by decide)).trans (by decide),
    (h2 REGISTER_R7 (by decide)).trans (by decide),
    (h2 REGISTER_COND (by decide)).trans (by decide), h3, h6, h7⟩

/-! ## The string scans of PUTS and PUTSP -/

theorem uchar_of_char (cs : Bool) (n : Nat) :
    uchar_of_int (char_of_int cs (n : Int)) = n % 256 := by
  unfold uchar_of_int char_of_int
  cases cs <;> simp only [if_true, if_false, Bool.false_eq_true] <;> omega

theorem char_ne_zero (cs : Bool) (n : Nat) :
    char_of_int cs (n : Int) ≠ 0 ↔ n % 256 ≠ 0 := by
  unfold char_of_int
  cases cs <;> simp only [if_true, if_false, Bool.false_eq_true] <;> omega

theorem words_between_self (m : Nat → Nat) (a : Nat) : words_between m a a = [] := by
  simp [words_between]

theorem words_between_cons (m : Nat → Nat) (a z : Nat) (h : a < z) :
    words_between m a z = m a :: words_between m (a + 1) z := by
  unfold words_between
  have hz : z - a = (z - (a + 1)) + 1 := by omega
  rw [hz, List.range'_succ]
  rfl

theorem first_zero_eq (m : Nat → Nat) (a z : Nat) (haz : a ≤ z)
    (hfirst : ∀ i, a ≤ i → i < z → m i ≠ 0) (h0 : m a = 0) : a = z := by
  by_contra hne
  exact hfirst a (Nat.le_refl a) (by omega) h0

/-- The scan of PUTS from `a` with a first zero word at `z` inside `memory`:
it succeeds and writes the low bytes of the words before `z`. -/
theorem puts_loop_spec (cs : Bool) (z : Nat) (hz : z < MEMORY_MAX) :
    ∀ (fuel a : Nat) (s : Machine), a ≤ z → s.memory z = 0 →
      (∀ i, a ≤ i → i < z → s.memory i ≠ 0) → z - a < fuel →
      puts_loop cs s fuel a
        = some { s with stdout :=
            s.stdout ++ putc_events (low_bytes (words_between s.memory a z)) } := by
  intro fuel
  induction fuel with
  | zero => intro a s _ _ _ hf; omega
  | succ fuel ih =>
    intro a s haz hzero hfirst hf
    rw [puts_loop, if_neg (by omega)]
    by_cases h0 : s.memory a = 0
    · rw [if_pos h0]
      have := first_zero_eq s.memory a z haz hfirst h0
      subst this
      simp [words_between_self, low_bytes, putc_events]
    · rw [if_neg h0]
      have hlt : a < z := by
        rcases Nat.lt_or_ge a z with h | h
        · exact h
        · have : a = z := by omega
          rw [this] at h0
          exact absurd hzero h0
      rw [ih (a + 1) (putc s (char_of_int cs (s.memory a))) hlt hzero
        (fun i hi hiz => hfirst i (by omega) hiz) (by omega)]
      rw [words_between_cons s.memory a z hlt]
      simp only [putc, uchar_of_char, low_bytes, putc_events, List.map_cons, List.append_assoc,
        List.singleton_append]

/-- The scan of PUTSP from `a` with a first zero word at `z` inside `memory`:
it succeeds and writes the packed bytes of the words before `z`. -/
theorem putsp_loop_spec (cs : Bool) (z : Nat) (hz : z < MEMORY_MAX) :
    ∀ (fuel a : Nat) (s : Machine), a ≤ z → s.memory z = 0 →
      (∀ i, a ≤ i → i < z → s.memory i ≠ 0) → z - a < fuel →
      putsp_loop cs s fuel a
        = some { s with stdout :=
            s.stdout ++ putc_events (packed_bytes (words_between s.memory a z)) } := by
  intro fuel
  induction fuel with
  | zero => intro a s _ _ _ hf; omega
  | succ fuel ih =>
    intro a s haz hzero hfirst hf
    rw [putsp_loop, if_neg (by omega)]
    by_cases h0 : s.memory a = 0
    · rw [if_pos h0]
      have := first_zero_eq s.memory a z haz hfirst h0
      subst this
      simp [words_between_self, packed_bytes, putc_events]
    · rw [if_neg h0]
      have hlt : a < z := by
        rcases Nat.lt_or_ge a z with h | h
        · exact h
        · have : a = z := by omega
          rw [this] at h0
          exact absurd hzero h0
      have hlow : (s.memory a &&& 0xFF) % 256 = s.memory a % 256 := by
        have : s.memory a &&& 0xFF = s.memory a % 256 := Nat.and_pow_two_sub_one_eq_mod _ 8
        rw [this, Nat.mod_mod]
      have hhigh : s.memory a >>> 8 = s.memory a / 256 := Nat.shiftRight_eq_div_pow _ 8
      simp only
      rw [words_between_cons s.memory a z hlt]
      by_cases hc : char_of_int cs ((s.memory a >>> 8 : Nat) : Int) ≠ 0
      · have hb : s.memory a / 256 % 256 ≠ 0 := by
          rw [← hhigh]
          exact (char_ne_zero cs _).1 hc
        rw [if_pos hc, ih (a + 1) (putc (putc s (char_of_int cs ((s.memory a &&& 0xFF : Nat) : Int)))
          (char_of_int cs ((s.memory a >>> 8 : Nat) : Int))) hlt hzero
          (fun i hi hiz => hfirst i (by omega) hiz) (by omega)]
        simp only [putc, uchar_of_char, packed_bytes, putc_events, if_pos hb, hlow, hhigh,
          List.map_cons, List.map_append, List.append_assoc, List.singleton_append,
          List.cons_append, List.nil_append, List.map_nil]
      · have hb : ¬ s.memory a / 256 % 256 ≠ 0 := by
          rw [← hhigh]
          exact fun h => hc ((char_ne_zero cs _).2 h)
        rw [if_neg hc, ih (a + 1) (putc s (char_of_int cs ((s.memory a &&& 0xFF : Nat) : Int)))
          hlt hzero (fun i hi hiz => hfirst i (by omega) hiz) (by omega)]
        simp only [putc, uchar_of_char, packed_bytes, putc_events, if_neg hb, hlow,
          List.map_cons, List.map_append, List.append_assoc, List.singleton_append,
          List.cons_append, List.nil_append, List.map_nil]

/-- The scans run off the end of `memory` when no word from `a` on is zero,
whatever the number of iterations allowed. -/
theorem puts_loop_none (cs : Bool) :
    ∀ (fuel a : Nat) (s : Machine), (∀ i, a ≤ i → i < MEMORY_MAX → s.memory i ≠ 0) →
      puts_loop cs s fuel a = none := by
  intro fuel
  induction fuel with
  | zero => intro a s _; rfl
  | succ fuel ih =>
    intro a s h
    rw [puts_loop]
    by_cases hm : MEMORY_MAX ≤ a
    · rw [if_pos hm]
    · rw [if_neg hm, if_neg (h a (Nat.le_refl a) (by omega))]
      exact ih (a + 1) _ fun i hi him => h i (by omega) him

theorem putsp_loop_none (cs : Bool) :
    ∀ (fuel a : Nat) (s : Machine), (∀ i, a ≤ i → i < MEMORY_MAX → s.memory i ≠ 0) →
      putsp_loop cs s fuel a = none := by
  intro fuel
  induction fuel with
  | zero => intro a s _; rfl
  | succ fuel ih =>
    intro a s h
    rw [putsp_loop]
    by_cases hm : MEMORY_MAX ≤ a
    · rw [if_pos hm]
    · rw [if_neg hm, if_neg (h a (Nat.le_refl a) (by omega))]
      simp only
      split
      · exact ih (a + 1) _ fun i hi him => h i (by omega) him
      · exact ih (a + 1) _ fun i hi him => h i (by omega) him

theorem packed_bytes_length (ws : List Nat) :
    (packed_bytes ws).length = ws.length + ws.countP (fun w => decide (w / 256 % 256 ≠ 0)) := by
  induction ws with
  | nil => rfl
  | cons w ws ih =>
    rw [packed_bytes, List.length_append, ih, List.countP_cons, List.length_cons]
    by_cases h : w / 256 % 256 ≠ 0
    · simp only [if_pos h, decide_eq_true h, if_true, List.length_cons, List.length_nil]
      omega
    · simp only [if_neg h, decide_eq_false h, List.length_cons, List.length_nil]
      simp
      omega

theorem fetch_at_status (s s1 : Machine) (instr : Nat) (hf : fetch s = (instr, s1))
    (hp : s.registers REGISTER_PC = MEMORY_MAPPED_REGISTER_KEYBOARD_STATUS) :
    instr = 0 ∨ instr = 0x8000 := by
  have h := memory_read_status_value
    (set_register s REGISTER_PC (uint16 (s.registers REGISTER_PC + 1)))
  have hf' : fetch s = memory_read (set_register s REGISTER_PC
      (uint16 (s.registers REGISTER_PC + 1))) MEMORY_MAPPED_REGISTER_KEYBOARD_STATUS := by
    unfold fetch
    simp only
    rw [hp]
  rw [← hf', hf] at h
  exact h

theorem trap_pc_ne_status (s s1 : Machine) (instr : Nat) (hf : fetch s = (instr, s1))
    (hop : instr >>> 12 = OPCODE_TRAP) :
    s.registers REGISTER_PC ≠ MEMORY_MAPPED_REGISTER_KEYBOARD_STATUS := by
  intro hp
  rcases fetch_at_status s s1 instr hf hp with h | h <;> rw [h] at hop <;>
    exact absurd hop (by decide)

/-! ## C16: PUTS -/

/-- C16. For every state with `R0 = a` such that some address in `a..0xFFFF`
holds `0x0000`, with `z` the first such address: TRAP PUTS writes to standard
output exactly the low bytes of `memory[a], ..., memory[z-1]` in that order
(the terminating zero word is not written), then flushes, and changes no
register other than the program counter and no memory cell. If `memory[a]` is
zero nothing is written. -/
theorem puts_output (cs : Bool) (s s1 : Machine) (instr a z : Nat)
    (hf : fetch s = (instr, s1)) (hop : instr >>> 12 = OPCODE_TRAP)
    (hv : instr &&& 0xFF = TRAP_PUTS) (ha : s.registers REGISTER_R0 = a)
    (haz : a ≤ z) (hz : z ≤ 0xFFFF) (hzero : s.memory z = 0)
    (hfirst : ∀ i, a ≤ i → i < z → s.memory i ≠ 0) :
    ∃ s2, step cs s = some s2 ∧
      s2.stdout = s.stdout ++ putc_events (low_bytes (words_between s.memory a z))
        ++ [StdoutEvent.fflush] ∧
      (s.memory a = 0 → s2.stdout = s.stdout ++ [StdoutEvent.fflush]) ∧
      (∀ r, r ≠ REGISTER_PC → s2.registers r = s.registers r) ∧
      s2.memory = s.memory ∧ s2.stdin = s.stdin := by
  have hne := trap_pc_ne_status s s1 instr hf hop
  obtain ⟨_, hs1⟩ := fetch_state_of_ne s s1 _ instr rfl hf hne
  have hmem : s1.memory = s.memory := by rw [hs1]; rfl
  have hr0 : s1.registers REGISTER_R0 = a := by
    rw [fetch_register s s1 instr _ hf (by decide), ha]
  have hloop := puts_loop_spec cs z (by unfold MEMORY_MAX; omega) (MEMORY_MAX + 1) a s1 haz
    (by rw [hmem]; exact hzero) (by rw [hmem]; exact hfirst) (by unfold MEMORY_MAX; omega)
  rw [step_of_fetch cs s s1 instr hf, execute_TRAP cs s1 instr hop, trap_PUTS cs s1 instr hv,
    hr0, hloop]
  refine ⟨_, rfl, ?_, ?_, ?_, hmem, ?_⟩
  · rw [hmem, hs1]
    rfl
  · intro h0
    have := first_zero_eq s.memory a z haz hfirst h0
    subst this
    rw [hs1]
    simp [fflush, set_register, words_between_self, low_bytes, putc_events]
  · intro r hr
    exact fetch_register s s1 instr r hf hr
  · rw [hs1]
    rfl

/-- C16, an instance of `puts_output`: with `0x48`, `0x49`, `0x00` at
`0x4000..0x4002` and `R0 = 0x4000`, PUTS writes the two bytes `HI` and
flushes. -/
theorem puts_output_witness :
    ∃ s2, step true example_PUTS = some s2 ∧
      s2.stdout = [StdoutEvent.putc 0x48, StdoutEvent.putc 0x49, StdoutEvent.fflush] := by
  obtain ⟨s2, h1, h2, _⟩ :=
    puts_output true example_PUTS (fetch example_PUTS).2 (fetch example_PUTS).1 0x4000 0x4002
      rfl (by decide) (by decide) (by decide) (by decide) (by decide) (by decide)
      (by
        intro i h1 h2
        have : i = 0x4000 ∨ i = 0x4001 := by omega
        rcases this with h | h <;> subst h <;> decide)
  exact ⟨s2, h1, h2.trans (by decide)⟩

/-! ## C17: PUTSP -/

/-- C17. For every state with `R0 = a` such that some address in `a..0xFFFF`
holds `0x0000`, with `z` the first such address: TRAP PUTSP writes, for each
word at `a, ..., z-1` in order, its low byte and then, if and only if its high
byte is nonzero, its high byte; it writes nothing else (a flush follows) and
changes no register other than the program counter and no memory cell. The
number of bytes written is the number of words plus the number of words with a
nonzero high byte. -/
theorem putsp_output (cs : Bool) (s s1 : Machine) (instr a z : Nat)
    (hf : fetch s = (instr, s1)) (hop : instr >>> 12 = OPCODE_TRAP)
    (hv : instr &&& 0xFF = TRAP_PUTSP) (ha : s.registers REGISTER_R0 = a)
    (haz : a ≤ z) (hz : z ≤ 0xFFFF) (hzero : s.memory z = 0)
    (hfirst : ∀ i, a ≤ i → i < z → s.memory i ≠ 0) :
    ∃ s2, step cs s = some s2 ∧
      s2.stdout = s.stdout ++ putc_events (packed_bytes (words_between s.memory a z))
        ++ [StdoutEvent.fflush] ∧
      (packed_bytes (words_between s.memory a z)).length
        = (words_between s.memory a z).length
          + (words_between s.memory a z).countP (fun w => decide (w / 256 % 256 ≠ 0)) ∧
      (∀ r, r ≠ REGISTER_PC → s2.registers r = s.registers r) ∧
      s2.memory = s.memory ∧ s2.stdin = s.stdin := by
  have hne := trap_pc_ne_status s s1 instr hf hop
  obtain ⟨_, hs1⟩ := fetch_state_of_ne s s1 _ instr rfl hf hne
  have hmem : s1.memory = s.memory := by rw [hs1]; rfl
  have hr0 : s1.registers REGISTER_R0 = a := by
    rw [fetch_register s s1 instr _ hf (by decide), ha]
  have hloop := putsp_loop_spec cs z (by unfold MEMORY_MAX; omega) (MEMORY_MAX + 1) a s1 haz
    (by rw [hmem]; exact hzero) (by rw [hmem]; exact hfirst) (by unfold MEMORY_MAX; omega)
  rw [step_of_fetch cs s s1 instr hf, execute_TRAP cs s1 instr hop, trap_PUTSP cs s1 instr hv,
    hr0, hloop]
  refine ⟨_, rfl, ?_, packed_bytes_length _, ?_, hmem, ?_⟩
  · rw [hmem, hs1]
    rfl
  · intro r hr
    exact fetch_register s s1 instr r hf hr
  · rw [hs1]
    rfl

/-- C17, an instance of `putsp_output`: the words `0x4241`, `0x0041` followed
by a zero word give `A`, `B`, `A`: two bytes for the first word, one for the
second. -/
theorem putsp_output_witness :
    ∃ s2, step true example_PUTSP = some s2 ∧
      s2.stdout = [StdoutEvent.putc 0x41, StdoutEvent.putc 0x42, StdoutEvent.putc 0x41,
        StdoutEvent.fflush] := by
  obtain ⟨s2, h1, h2, _⟩ :=
    putsp_output true example_PUTSP (fetch example_PUTSP).2 (fetch example_PUTSP).1 0x4000
      0x4002 rfl (by decide) (by decide) (by decide) (by decide) (by decide) (by decide)
      (by
        intro i h1 h2
        have : i = 0x4000 ∨ i = 0x4001 := by omega
        rcases this with h | h <;> subst h <;> decide)
  exact ⟨s2, h1, h2.trans (by decide)⟩

/-! ## C18: GETC and IN -/

/-- GETC for every byte: R0 receives the byte zero-extended, the flag is Z or
P, and nothing is written. -/
theorem getc_semantics (cs : Bool) (s s1 : Machine) (instr b : Nat) (rest : List Nat)
    (hf : fetch s = (instr, s1)) (hop : instr >>> 12 = OPCODE_TRAP)
    (hv : instr &&& 0xFF = TRAP_GETC) (hin : s.stdin = b :: rest) (hb : b < 256) :
    ∃ s2, step cs s = some s2 ∧ s2.registers REGISTER_R0 = b ∧
      s2.registers REGISTER_COND = (if b = 0 then FLAG_ZRO_Z else FLAG_POS_P) ∧
      s2.stdout = s.stdout ∧ s2.stdin = rest := by
  have hne := trap_pc_ne_status s s1 instr hf hop
  obtain ⟨_, hs1⟩ := fetch_state_of_ne s s1 _ instr rfl hf hne
  have hin1 : s1.stdin = b :: rest := by rw [hs1]; exact hin
  have hg : getchar s1 = ((b : Int), { s1 with stdin := rest }) := by
    unfold getchar
    rw [hin1]
  have hu : uint16_of_int (b : Int) = b := by unfold uint16_of_int; omega
  rw [step_of_fetch cs s s1 instr hf, execute_TRAP cs s1 instr hop, trap_GETC cs s1 instr hv, hg]
  simp only
  rw [hu]
  refine ⟨_, rfl, ?_, ?_, ?_, ?_⟩
  · rw [flags_after_write _ _ b (by omega)]
    rw [Function.update_noteq (by decide), Function.update_same]
  · rw [flags_after_write _ _ b (by omega), Function.update_same, flag_of_sign_cases b (by omega)]
    by_cases h0 : b = 0
    · rw [if_pos h0, if_pos h0]
    · rw [if_neg h0, if_neg h0, if_neg (by omega)]
  · rw [update_flags_eq _ _ (by simp [set_register]; omega), hs1]
    rfl
  · rw [update_flags_eq _ _ (by simp [set_register]; omega)]
    rfl

/-- C18, the defect. On a host where plain `char` is signed, TRAP IN with the
input byte `0x80` leaves `0xFF80` in R0 and sets N, where the claim has
`0x0080` and P; the byte is echoed after the prompt as the claim says. TRAP
GETC, which does not go through a `char`, leaves `0x0080` and P for the same
byte. -/
theorem trap_in_sign_extends :
    (∃ s2, step true example_IN_high_byte = some s2 ∧
      s2.registers REGISTER_R0 = 0xFF80 ∧ s2.registers REGISTER_COND = FLAG_NEG_N ∧
      s2.stdout = putc_events ("Enter a character: ".toList.map Char.toNat)
        ++ [StdoutEvent.putc 0x80, StdoutEvent.fflush]) ∧
    (∃ s2, step true example_GETC_high_byte = some s2 ∧
      s2.registers REGISTER_R0 = 0x0080 ∧ s2.registers REGISTER_COND = FLAG_POS_P ∧
      s2.stdout = []) :=
  ⟨⟨_, rfl, by decide, by decide, by decide⟩, ⟨_, rfl, by decide, by decide, by decide⟩⟩

/-! ## C19: the terminal mode at the end of a run -/

/-- The two ends of a run that restore the terminal: the return of `main` after
a HALT, and the interrupt handler. -/
theorem restore_on_halt_and_interrupt (s : Machine) :
    (s.exit_status = none → s.running = false →
      (after_iteration s).raw_mode = false ∧ (after_iteration s).exit_status = some 0) ∧
    ((handle_interrupt s).raw_mode = false ∧ (handle_interrupt s).exit_status = some (-2)) := by
  constructor
  · intro he hr
    simp [after_iteration, main_return, restore_input_buffering, he, hr, EXIT_SUCCESS]
  · exact ⟨rfl, rfl⟩

/-- C19, the defect. The run of the image whose first word is `0x8000` (RTI)
enters raw mode in `boot` and ends in its first iteration with the status
`EXIT_FAILURE`, the terminal still in raw mode. -/
theorem invalid_opcode_leaves_raw_mode :
    (boot example_RTI).raw_mode = true ∧
    ∃ s2, run true 1 (boot example_RTI) = some s2 ∧
      s2.exit_status = some EXIT_FAILURE ∧ s2.raw_mode = true :=
  ⟨rfl, _, rfl, by decide, by decide⟩

/-! ## C20: the string scans and the end of `memory` -/

/-- C20, the defect. With `R0 = 0xFFFF` and a nonzero word in that last cell,
the scans of TRAP PUTS and of TRAP PUTSP go on to index `0x10000`, outside
`memory`: the step has no defined result. -/
theorem string_scan_leaves_memory :
    example_PUTS_unterminated.registers REGISTER_R0 = 0xFFFF ∧
    example_PUTS_unterminated.memory 0xFFFF ≠ 0 ∧
    step true example_PUTS_unterminated = none ∧
    step false example_PUTS_unterminated = none ∧
    step true example_PUTSP_unterminated = none ∧
    step false example_PUTSP_unterminated = none :=
  ⟨by decide, by decide, rfl, rfl, rfl, rfl⟩

/-! ## C12 and C13: the image loader -/

/-- An image whose origin is 0 loads nothing: `read_max` is `0x10000` cut to 16
bits. -/
theorem image_file_read_origin_zero (indeterminate : Nat) (s : Machine) (payload : List Nat) :
    image_file_read indeterminate s (0 :: 0 :: payload) = s := by
  have h1 : fread16 1 (0 :: 0 :: payload) = ([0], false, payload) := by
    simp [fread16]
  have h2 : swap16 0 = 0 := by decide
  have h3 : uint16 (MEMORY_MAX - 0) = 0 := by decide
  unfold image_file_read
  simp only [h1, List.headD_cons, h2, h3]
  have h4 : fread16 0 payload = ([], false, payload) := by
    cases payload <;> rfl
  rw [h4]
  rfl

/-- C12, the defect. The image `00 00 12 34` (origin 0, one payload word
`0x1234`) leaves `memory[0]` as it was, here 0, where the claim has `0x1234`;
the same payload at origin `0x3000` is loaded. -/
theorem image_origin_zero_not_loaded :
    (image_file_read 0 (machine_of [] [] [] []) [0x00, 0x00, 0x12, 0x34]).memory 0 = 0 ∧
    (image_file_read 0 (machine_of [] [] [] []) [0x00, 0x00, 0x12, 0x34]).memory 0 ≠ 0x1234 ∧
    (image_file_read 0 (machine_of [] [] [] []) [0x30, 0x00, 0x12, 0x34]).memory 0x3000
      = 0x1234 :=
  ⟨by decide, by decide, by decide⟩

theorem image_file_read_short (indeterminate : Nat) (s : Machine) (stream : List Nat)
    (h : stream.length ≤ 2) : image_file_read indeterminate s stream = s := by
  have hrest : (fread16 1 stream).2.2 = [] := by
    match stream, h with
    | [], _ => rfl
    | [_], _ => rfl
    | [_, _], _ => rfl
  unfold image_file_read
  simp only [hrest]
  have h0 : ∀ n, fread16 n [] = ([], false, []) := by
    intro n
    cases n <;> rfl
  rw [h0]
  rfl

/-- C13 (as amended). Image loading of an opened stream never fails: `image_read`
returns 1 for every stream, also when fewer than two bytes are available for
the origin, and it returns 0 only when the file cannot be opened. Every stream
of two or more bytes is accepted whatever the amount of payload, and with an
empty payload, as with fewer than two bytes, memory and the rest of the state
are left unchanged. -/
theorem image_read_accepts (indeterminate : Nat) (s : Machine) (stream : List Nat) :
    (image_read indeterminate s (some stream)).1 = 1 ∧
    (stream.length ≤ 2 → (image_read indeterminate s (some stream)).2 = s) ∧
    image_read indeterminate s none = (0, s) :=
  ⟨rfl, fun h => image_file_read_short indeterminate s stream h, rfl⟩

/-- C13, an instance of `image_read_accepts`: the image `30 00`, an origin
with no payload, is accepted and changes nothing. -/
theorem image_read_accepts_witness :
    (image_read 0 example_HALT (some [0x30, 0x00])).1 = 1 ∧
    (image_read 0 example_HALT (some [0x30, 0x00])).2 = example_HALT :=
  ⟨(image_read_accepts 0 example_HALT [0x30, 0x00]).1,
    (image_read_accepts 0 example_HALT [0x30, 0x00]).2.1 (by decide)⟩

/-- C13 (as stated) fails: for the empty stream and for a stream of one byte,
both with fewer than two bytes for the origin, `image_read` reports success
(1, the value it returns for a loaded image), not a failure. -/
theorem image_read_truncated_counterexample :
    (image_read 0 example_HALT (some [])).1 = 1 ∧
    (image_read 0 example_HALT (some [0x30])).1 = 1 ∧
    (image_read 0 example_HALT none).1 = 0 :=
  ⟨rfl, rfl, rfl⟩

/-! ## The image loader on a well-formed image with a nonzero origin -/

theorem swap16_little_endian (b0 b1 : Nat) (h0 : b0 < 256) (h1 : b1 < 256) :
    swap16 (b0 + 256 * b1) = 256 * b0 + b1 := by
  unfold swap16 uint16
  have hs : (b0 + 256 * b1) >>> 8 = b1 := by
    rw [Nat.shiftRight_eq_div_pow]
    omega
  have hl : (b0 + 256 * b1) <<< 8 = 2 ^ 8 * (b0 + 256 * b1) := by
    rw [Nat.shiftLeft_eq, Nat.mul_comm]
  rw [hs, hl, ← Nat.mul_add_lt_is_or (by omega)]
  omega

theorem fread16_nil (n : Nat) : fread16 n [] = ([], false, []) := by
  cases n <;> rfl

theorem fread16_encoded (words : List Nat) :
    ∀ n, words.length ≤ n →
      fread16 n (encode_words words)
        = (words.map (fun w => w / 256 + 256 * (w % 256)), false, []) := by
  induction words with
  | nil => intro n _; exact fread16_nil n
  | cons w ws ih =>
    intro n hn
    cases n with
    | zero => simp at hn
    | succ n =>
      rw [encode_words, fread16, ih n (by simpa using hn)]
      rfl

theorem store_words_memory (ws : List Nat) :
    ∀ (s : Machine) (p a : Nat),
      (store_words s p ws).memory a
        = if p ≤ a ∧ a < p + ws.length then ws.getD (a - p) 0 else s.memory a := by
  induction ws with
  | nil =>
    intro s p a
    rw [store_words, if_neg (by simp)]
  | cons w ws ih =>
    intro s p a
    rw [store_words, ih]
    by_cases hpa : a = p
    · subst hpa
      rw [if_neg (by omega), if_pos (by simp), memory_write_same]
      simp
    · rw [memory_write_of_ne _ _ _ _ hpa]
      by_cases hin : p + 1 ≤ a ∧ a < p + 1 + ws.length
      · rw [if_pos hin, if_pos (by simp only [List.length_cons]; omega)]
        have : a - p = (a - (p + 1)) + 1 := by omega
        rw [this, List.getD_cons_succ]
      · rw [if_neg hin, if_neg (by simp only [List.length_cons]; omega)]

theorem swap_loop_memory (n : Nat) :
    ∀ (s : Machine) (p a : Nat),
      (swap_loop s n p).memory a
        = if p ≤ a ∧ a < p + n then swap16 (s.memory a) else s.memory a := by
  induction n with
  | zero =>
    intro s p a
    rw [swap_loop, if_neg (by omega)]
  | succ n ih =>
    intro s p a
    rw [swap_loop, ih]
    by_cases hpa : a = p
    · subst hpa
      rw [if_neg (by omega), if_pos (by omega), memory_write_same]
    · rw [memory_write_of_ne _ _ _ _ hpa]
      by_cases hin : p + 1 ≤ a ∧ a < p + 1 + n
      · rw [if_pos hin, if_pos (by omega)]
      · rw [if_neg hin, if_neg (by omega)]

theorem words_between_eq (m : Nat → Nat) (l : List Nat) :
    ∀ a, (∀ i, i < l.length → m (a + i) = l.getD i 0) →
      words_between m a (a + l.length) = l := by
  induction l with
  | nil =>
    intro a _
    simp [words_between]
  | cons w ws ih =>
    intro a h
    rw [words_between_cons m a _ (by simp)]
    have h0 := h 0 (by simp)
    simp only [Nat.add_zero, List.getD_cons_zero] at h0
    have hlen : a + (w :: ws).length = (a + 1) + ws.length := by
      simp only [List.length_cons]
      omega
    rw [h0, hlen, ih (a + 1)]
    intro i hi
    have := h (i + 1) (by simpa using hi)
    rw [List.getD_cons_succ] at this
    rw [← this]
    congr 1
    omega

/-- The loader on an image with an origin from 1 on: for every prior state,
every origin `o` in `1..0xFFFF` and every payload of 16-bit words that fits
below the end of memory, followed by nothing, after `image_file_read` on the
big-endian bytes of the origin and of the payload the cells from `o` on hold
the payload words, every other cell is unchanged, and encoding those cells
big-endian gives back the payload bytes. -/
theorem image_file_read_loads (indeterminate : Nat) (s : Machine) (o : Nat) (words : List Nat)
    (ho1 : 1 ≤ o) (ho2 : o ≤ 0xFFFF) (hn : words.length ≤ 0x10000 - o)
    (hw : ∀ w ∈ words, w < 65536) :
    (∀ i, i < words.length →
      (image_file_read indeterminate s (encode_words (o :: words))).memory (o + i)
        = words.getD i 0) ∧
    (∀ a, (a < o ∨ o + words.length ≤ a) →
      (image_file_read indeterminate s (encode_words (o :: words))).memory a = s.memory a) ∧
    encode_words (words_between
        (image_file_read indeterminate s (encode_words (o :: words))).memory o
        (o + words.length)) = encode_words words := by
  have h1 : fread16 1 (encode_words (o :: words))
      = ([o / 256 + 256 * (o % 256)], false, encode_words words) := by
    rw [encode_words, fread16]
    cases h : encode_words words <;> rfl
  have horigin : swap16 (o / 256 + 256 * (o % 256)) = o := by
    rw [swap16_little_endian _ _ (by omega) (by omega)]
    omega
  have hmax : uint16 (MEMORY_MAX - o) = 0x10000 - o := by
    unfold uint16 MEMORY_MAX
    have : 1 <<< 16 = 65536 := by decide
    omega
  have h2 := fread16_encoded words (0x10000 - o) hn
  have hmem : ∀ a, (image_file_read indeterminate s (encode_words (o :: words))).memory a
      = if o ≤ a ∧ a < o + words.length then words.getD (a - o) 0 else s.memory a := by
    intro a
    unfold image_file_read
    simp only [h1, List.headD_cons, horigin, hmax, h2, List.length_map, Bool.false_eq_true,
      if_false]
    rw [swap_loop_memory, store_words_memory]
    simp only [List.length_map]
    by_cases hin : o ≤ a ∧ a < o + words.length
    · simp only [if_pos hin]
      have hidx : a - o < words.length := by omega
      rw [List.getD_eq_getElem _ _ (by simpa using hidx), List.getElem_map,
        List.getD_eq_getElem _ _ hidx]
      have hlt := hw _ (List.getElem_mem hidx)
      rw [swap16_little_endian _ _ (by omega) (by omega)]
      omega
    · simp only [if_neg hin]
  have hfirst : ∀ i, i < words.length →
      (image_file_read indeterminate s (encode_words (o :: words))).memory (o + i)
        = words.getD i 0 := by
    intro i hi
    rw [hmem, if_pos (by omega)]
    congr 1
    omega
  refine ⟨hfirst, ?_, ?_⟩
  · intro a ha
    rw [hmem, if_neg (by omega)]
  · rw [words_between_eq _ words o hfirst]

/-! ## TRAP IN where it agrees with GETC -/

theorem char_of_small (cs : Bool) (b : Nat) (hb : b < 256) (hc : cs = false ∨ b < 128) :
    char_of_int cs (b : Int) = (b : Int) := by
  unfold char_of_int
  rcases hc with h | h
  · rw [h]
    simp only [Bool.false_eq_true, if_false]
    omega
  · cases cs <;> simp only [Bool.false_eq_true, if_false, if_true] <;> omega

/-- IN for the bytes that a plain `char` holds without a change of sign (every
byte when `char` is unsigned, the bytes below `0x80` otherwise): the prompt and
the byte are written and flushed, R0 receives the byte zero-extended, and the
flag is Z or P. -/
theorem in_semantics (cs : Bool) (s s1 : Machine) (instr b : Nat) (rest : List Nat)
    (hf : fetch s = (instr, s1)) (hop : instr >>> 12 = OPCODE_TRAP)
    (hv : instr &&& 0xFF = TRAP_IN) (hin : s.stdin = b :: rest) (hb : b < 256)
    (hc : cs = false ∨ b < 128) :
    ∃ s2, step cs s = some s2 ∧ s2.registers REGISTER_R0 = b ∧
      s2.registers REGISTER_COND = (if b = 0 then FLAG_ZRO_Z else FLAG_POS_P) ∧
      s2.stdout = s.stdout ++ putc_events ("Enter a character: ".toList.map Char.toNat)
        ++ [StdoutEvent.putc b, StdoutEvent.fflush] ∧
      s2.stdin = rest := by
  have hne := trap_pc_ne_status s s1 instr hf hop
  obtain ⟨_, hs1⟩ := fetch_state_of_ne s s1 _ instr rfl hf hne
  have hin1 : (print_string s1 "Enter a character: ").stdin = b :: rest := by
    rw [hs1]
    exact hin
  have hg : getchar (print_string s1 "Enter a character: ")
      = ((b : Int), { print_string s1 "Enter a character: " with stdin := rest }) := by
    unfold getchar
    rw [hin1]
  have hu : uint16_of_int (b : Int) = b := by unfold uint16_of_int; omega
  have huc : uchar_of_int (b : Int) = b := by unfold uchar_of_int; omega
  rw [step_of_fetch cs s s1 instr hf, execute_TRAP cs s1 instr hop, trap_IN cs s1 instr hv, hg]
  simp only
  rw [char_of_small cs b hb hc, hu]
  refine ⟨_, rfl, ?_, ?_, ?_, ?_⟩
  · rw [flags_after_write _ _ b (by omega)]
    rw [Function.update_noteq (by decide), Function.update_same]
  · rw [flags_after_write _ _ b (by omega), Function.update_same, flag_of_sign_cases b (by omega)]
    by_cases h0 : b = 0
    · rw [if_pos h0, if_pos h0]
    · rw [if_neg h0, if_neg h0, if_neg (by omega)]
  · rw [update_flags_eq _ _ (by simp [set_register]; omega), hs1]
    simp [set_register, fflush, putc, print_string, putc_events, huc]
  · rw [update_flags_eq _ _ (by simp [set_register]; omega)]
    rfl

end LC3
